import Mathlib

/-! # Floppy controller of NEONBTL (`emulator/emubase/Floppy.cpp`)

A shallow embedding of `CFloppyDrive` and `CFloppyController`: the command
classifier, the three-phase FIFO state machine and the command executor.

Conventions of the embedding.

* Bytes (`uint8_t`) are natural numbers below 256; the one place where the
  source relies on 8-bit wrap-around (`m_command[4] - 1`) carries an explicit
  `% 256`.
* The arrays `m_command`, `m_result` and `m_drivedata` are total maps from
  indices to cells; the source addresses `m_command[0..8]`, `m_result[0..6]`
  and `m_drivedata[0..3]`.
* Trace output (`DebugLog`, `DebugLogFormat`) has no effect on the controller
  and is left out.
* The host board is an explicit value: the answers its buffer-fill routine
  will give, and the log of the pointers it has received.
-/

/-- Modelled from the spec: the `FLOPPY_PHASE_*` constants of `Emubase.h`, which
is not among the sources; the three protocol phases Command, Execution and
Result, taken as pairwise distinct values. -/
inductive FloppyPhase where
  | FLOPPY_PHASE_CMD
  | FLOPPY_PHASE_EXEC
  | FLOPPY_PHASE_RESULT
deriving DecidableEq, Repr

/-- Modelled from the spec: the `FLOPPY_COMMAND_*` constants of `Emubase.h`, which
is not among the sources; the classifier results incomplete, invalid and one
value per command kind, taken as pairwise distinct values. -/
inductive FloppyCommand where
  | FLOPPY_COMMAND_INVALID
  | FLOPPY_COMMAND_INCOMPLETE
  | FLOPPY_COMMAND_SPECIFY
  | FLOPPY_COMMAND_SENSE_DRIVE_STATUS
  | FLOPPY_COMMAND_RECALIBRATE
  | FLOPPY_COMMAND_SENSE_INTERRUPT_STATUS
  | FLOPPY_COMMAND_SEEK
  | FLOPPY_COMMAND_READ_TRACK
  | FLOPPY_COMMAND_WRITE_DATA
  | FLOPPY_COMMAND_READ_DATA
  | FLOPPY_COMMAND_READ_ID
  | FLOPPY_COMMAND_FORMAT_TRACK
  | FLOPPY_COMMAND_SCAN_EQUAL
  | FLOPPY_COMMAND_SCAN_LOW
  | FLOPPY_COMMAND_SCAN_HIGH
deriving DecidableEq, Repr

/-- Modelled from the spec: the `FLOPPY_STATE_*` constants of `Emubase.h`, which
is not among the sources; the source only ever stores `FLOPPY_STATE_IDLE`. -/
inductive FloppyState where
  | FLOPPY_STATE_IDLE
deriving DecidableEq, Repr

open FloppyPhase FloppyCommand FloppyState

/-- One disk drive. A file is a byte sequence: `fpFile` is `none` for `nullptr`
and otherwise holds the bytes of the open file from the file position on (the
whole file right after it was opened); `data` is `none` for `nullptr` and
otherwise the content of the backing buffer. -/
structure CFloppyDrive where
  fpFile : Option (List Nat)
  okReadOnly : Bool
  datatrack : Nat
  dataside : Nat
  dataptr : Nat
  data : Option (List Nat)

/-- The constructor `CFloppyDrive::CFloppyDrive`. -/
def CFloppyDrive.ctor : CFloppyDrive :=
  { fpFile := none, okReadOnly := false, datatrack := 0, dataside := 0, dataptr := 0,
    data := none }

/-- The method `CFloppyDrive::Reset`: zeroes the cursor fields only. -/
def CFloppyDrive.Reset (d : CFloppyDrive) : CFloppyDrive :=
  { d with datatrack := 0, dataside := 0, dataptr := 0 }

/-- The pointer handed to the buffer-fill routine: `m_drivedata[slot].data + offset`. -/
structure FillCall where
  slot : Nat
  offset : Nat
deriving DecidableEq, Repr

/-- Modelled from the spec: the host board `CMotherboard`, whose `FillHDBuffer` is
not among the sources. The buffer-fill routine receives a pointer into a drive
image and returns whether another sector should follow; here `fillAnswers` is
the sequence of answers the routine will give to its next calls and `fillCalls`
the pointers it has received so far, oldest first. -/
structure CMotherboard where
  fillAnswers : List Bool
  fillCalls : List FillCall

/-- The controller `CFloppyController`. `m_pDrive` is the index of the slot of
`m_drivedata` the pointer refers to (the source only ever assigns
`m_drivedata + index` to it). -/
structure CFloppyController where
  m_pBoard : CMotherboard
  m_drivedata : Nat → CFloppyDrive
  m_drive : Nat
  m_pDrive : Nat
  m_side : Nat
  m_track : Nat
  m_phase : FloppyPhase
  m_state : FloppyState
  m_int : Bool
  m_command : Nat → Nat
  m_commandlen : Nat
  m_result : Nat → Nat
  m_resultlen : Nat
  m_resultpos : Nat
  m_okTrace : Bool

/-- The array store `a[i] = v`. -/
def setAt (a : Nat → Nat) (i v : Nat) : Nat → Nat :=
  fun j => if j = i then v else a j

namespace CFloppyController

/-- The constructor `CFloppyController::CFloppyController`, bound to a board. The
arrays start zeroed here; the source leaves them uninitialised and never reads
a cell before writing it. -/
def ctor (pBoard : CMotherboard) : CFloppyController :=
  { m_pBoard := pBoard, m_drivedata := fun _ => CFloppyDrive.ctor,
    m_drive := 0, m_pDrive := 0, m_side := 0, m_track := 0,
    m_phase := FLOPPY_PHASE_CMD, m_state := FLOPPY_STATE_IDLE, m_int := false,
    m_command := fun _ => 0, m_commandlen := 0,
    m_result := fun _ => 0, m_resultlen := 0, m_resultpos := 0, m_okTrace := false }

/-- Modelled from the spec: `IsAttached` of `Emubase.h`, which is not among the
sources; a drive is attached exactly when its file handle is not null. -/
def IsAttached (s : CFloppyController) (drive : Nat) : Bool :=
  (s.m_drivedata drive).fpFile.isSome

/-- The method `FlushChanges`: two guards and an empty body. -/
def FlushChanges (s : CFloppyController) : CFloppyController :=
  if s.m_drive = 0xff then s
  else if !s.IsAttached s.m_drive then s
  else s

/-- The method `Reset`. -/
def Reset (s : CFloppyController) : CFloppyController :=
  let s := s.FlushChanges
  { s with m_drive := 0, m_side := 0, m_track := 0, m_pDrive := 0,
           m_phase := FLOPPY_PHASE_CMD, m_state := FLOPPY_STATE_IDLE, m_int := false,
           m_commandlen := 0, m_resultlen := 0, m_resultpos := 0 }

/-- The method `CheckCommand`: a switch on `m_command[0]`, then a switch on its
low five bits. -/
def CheckCommand (s : CFloppyController) : FloppyCommand :=
  match s.m_command 0 with
  | 0x03 => if s.m_commandlen = 3 then FLOPPY_COMMAND_SPECIFY else FLOPPY_COMMAND_INCOMPLETE
  | 0x04 =>
    if s.m_commandlen = 2 then FLOPPY_COMMAND_SENSE_DRIVE_STATUS else FLOPPY_COMMAND_INCOMPLETE
  | 0x07 => if s.m_commandlen = 2 then FLOPPY_COMMAND_RECALIBRATE else FLOPPY_COMMAND_INCOMPLETE
  | 0x08 => FLOPPY_COMMAND_SENSE_INTERRUPT_STATUS
  | 0x0f => if s.m_commandlen = 3 then FLOPPY_COMMAND_SEEK else FLOPPY_COMMAND_INCOMPLETE
  | _ =>
    match s.m_command 0 &&& 0x1f with
    | 0x02 => if s.m_commandlen = 9 then FLOPPY_COMMAND_READ_TRACK else FLOPPY_COMMAND_INCOMPLETE
    | 0x05 => if s.m_commandlen = 9 then FLOPPY_COMMAND_WRITE_DATA else FLOPPY_COMMAND_INCOMPLETE
    | 0x09 => if s.m_commandlen = 9 then FLOPPY_COMMAND_WRITE_DATA else FLOPPY_COMMAND_INCOMPLETE
    | 0x06 => if s.m_commandlen = 9 then FLOPPY_COMMAND_READ_DATA else FLOPPY_COMMAND_INCOMPLETE
    | 0x0c => if s.m_commandlen = 9 then FLOPPY_COMMAND_READ_DATA else FLOPPY_COMMAND_INCOMPLETE
    | 0x0a => if s.m_commandlen = 2 then FLOPPY_COMMAND_READ_ID else FLOPPY_COMMAND_INCOMPLETE
    | 0x0d => if s.m_commandlen = 6 then FLOPPY_COMMAND_FORMAT_TRACK else FLOPPY_COMMAND_INCOMPLETE
    | 0x11 => if s.m_commandlen = 9 then FLOPPY_COMMAND_SCAN_EQUAL else FLOPPY_COMMAND_INCOMPLETE
    | 0x19 => if s.m_commandlen = 9 then FLOPPY_COMMAND_SCAN_LOW else FLOPPY_COMMAND_INCOMPLETE
    | 0x1d => if s.m_commandlen = 9 then FLOPPY_COMMAND_SCAN_HIGH else FLOPPY_COMMAND_INCOMPLETE
    | _ => FLOPPY_COMMAND_INVALID

/-- The transfer loop of Read Data, `for (;;)` in `ExecuteCommand`, for command
bytes `c2 = m_command[2]` and `c3 = m_command[3]`. Each round hands
`m_drivedata[0].data + offset` to `FillHDBuffer`, whose answer is the head of
the board's remaining answers; the loop ends on the first answer `false`. When
the answers run out before a `false` the loop has not returned, and the result
is `none`. -/
def readDataLoop (c2 c3 : Nat) : Nat → List Bool → List FillCall → Option CMotherboard
  | _, [], _ => none
  | sector, contflag :: rest, calls =>
    let offset := (c2 * 2 + c3) * 5120 + sector * 512
    let calls1 := calls ++ [{ slot := 0, offset := offset }]
    if !contflag then some { fillAnswers := rest, fillCalls := calls1 }
    else readDataLoop c2 c3 ((sector + 1) % 10) rest calls1

/-- The method `ExecuteCommand`. The result is `none` when the Read Data loop
does not return. -/
def ExecuteCommand (s : CFloppyController) (cmd : FloppyCommand) : Option CFloppyController :=
  match cmd with
  | FLOPPY_COMMAND_READ_DATA =>
    let s1 := { s with
      m_phase := FLOPPY_PHASE_RESULT,
      m_result := setAt (setAt (setAt (setAt (setAt (setAt (setAt s.m_result
        0 (0x20 ||| (s.m_command 1 &&& 3))) 1 0) 2 0) 3 (s.m_command 2)) 4 (s.m_command 3))
        5 (s.m_command 4)) 6 (s.m_command 5),
      m_resultlen := 7,
      m_int := true }
    if s1.m_drive ≠ 0xff ∧ !s1.IsAttached s1.m_drive then
      some { s1 with m_result := setAt s1.m_result 0 (0xC8 ||| (s1.m_command 1 &&& 3)) }
    else
      let sector := (s1.m_command 4 + 255) % 256
      match readDataLoop (s1.m_command 2) (s1.m_command 3) sector
          s1.m_pBoard.fillAnswers s1.m_pBoard.fillCalls with
      | none => none
      | some board => some { s1 with m_pBoard := board }
  | FLOPPY_COMMAND_RECALIBRATE =>
    some { s with m_phase := FLOPPY_PHASE_CMD, m_int := true }
  | FLOPPY_COMMAND_SEEK =>
    some { s with m_phase := FLOPPY_PHASE_CMD, m_int := true }
  | FLOPPY_COMMAND_SENSE_INTERRUPT_STATUS =>
    some { s with
      m_phase := FLOPPY_PHASE_RESULT,
      m_result := setAt (setAt s.m_result 0 0x20) 1 0x00,
      m_resultlen := 2,
      m_int := false }
  | FLOPPY_COMMAND_SPECIFY =>
    some { s with m_phase := FLOPPY_PHASE_CMD }
  | FLOPPY_COMMAND_WRITE_DATA =>
    some { s with
      m_phase := FLOPPY_PHASE_RESULT,
      m_result := setAt (setAt (setAt (setAt (setAt (setAt (setAt s.m_result
        0 (0x20 ||| (s.m_command 1 &&& 3))) 1 0) 2 0) 3 (s.m_command 2)) 4 (s.m_command 3))
        5 (s.m_command 4)) 6 (s.m_command 5),
      m_resultlen := 7,
      m_int := true }
  | _ => some s

/-- The method `StartCommand`. -/
def StartCommand (s : CFloppyController) (cmd : FloppyCommand) : Option CFloppyController :=
  let s1 := { s with m_commandlen := 0, m_resultlen := 0, m_resultpos := 0,
                     m_phase := FLOPPY_PHASE_EXEC }
  let s2 :=
    if cmd ≠ FLOPPY_COMMAND_SPECIFY ∧ cmd ≠ FLOPPY_COMMAND_SENSE_INTERRUPT_STATUS then
      { s1 with m_drive := s1.m_command 1 &&& 3, m_pDrive := s1.m_command 1 &&& 3 }
    else s1
  s2.ExecuteCommand cmd

/-- The first two statements of the Command branch of `FifoWrite`:
`m_int = false; m_command[m_commandlen++] = data;`. -/
def pushCommandByte (s : CFloppyController) (data : Nat) : CFloppyController :=
  { s with m_int := false,
           m_command := setAt s.m_command s.m_commandlen data,
           m_commandlen := s.m_commandlen + 1 }

/-- The method `FifoWrite`, for a byte `data`. The result is `none` when the
executor does not return. -/
def FifoWrite (s : CFloppyController) (data : Nat) : Option CFloppyController :=
  if s.m_phase = FLOPPY_PHASE_CMD then
    let s1 := s.pushCommandByte data
    let cmd := s1.CheckCommand
    if cmd = FLOPPY_COMMAND_INCOMPLETE then some s1
    else if cmd = FLOPPY_COMMAND_INVALID then
      some { s1 with m_phase := FLOPPY_PHASE_RESULT,
                     m_result := setAt s1.m_result 0 0x80,
                     m_resultlen := 1, m_resultpos := 0, m_commandlen := 0 }
    else s1.StartCommand cmd
  else some s

/-- The method `FifoRead`: the byte returned and the state afterwards. -/
def FifoRead (s : CFloppyController) : Nat × CFloppyController :=
  match s.m_phase with
  | FLOPPY_PHASE_CMD => (0xff, s)
  | FLOPPY_PHASE_EXEC => (0xff, s)
  | FLOPPY_PHASE_RESULT =>
    let s1 := { s with m_int := false }
    let rs :=
      if s1.m_resultpos < s1.m_resultlen then
        (s1.m_result s1.m_resultpos, { s1 with m_resultpos := s1.m_resultpos + 1 })
      else (0xff, s1)
    let s2 := rs.2
    let s3 := if s2.m_resultpos ≥ s2.m_resultlen then { s2 with m_phase := FLOPPY_PHASE_CMD }
              else s2
    (rs.1, s3)

/-- Bytes submitted one after the other with `FifoWrite`. -/
def submit (s : CFloppyController) : List Nat → Option CFloppyController
  | [] => some s
  | b :: bs =>
    match s.FifoWrite b with
    | none => none
    | some s1 => submit s1 bs

/-- The bytes returned by `n` successive calls of `FifoRead`, and the state
afterwards. -/
def readMany : Nat → CFloppyController → List Nat × CFloppyController
  | 0, s => ([], s)
  | n + 1, s => ((s.FifoRead.1 :: (readMany n s.FifoRead.2).1), (readMany n s.FifoRead.2).2)

/-- The staged result bytes `m_result[0 .. m_resultlen - 1]`. -/
def resultBytes (s : CFloppyController) : List Nat :=
  (List.range s.m_resultlen).map s.m_result

end CFloppyController

/-! ## The opcode table of the specification -/

/-- An opcode pattern of the table: the whole first byte, or its low five bits. -/
inductive OpcodePattern where
  | whole (b : Nat)
  | low5 (v : Nat)

/-- Whether the first command byte `b` matches a pattern. -/
def OpcodePattern.matchesByte : OpcodePattern → Nat → Bool
  | .whole v, b => b == v
  | .low5 v, b => (b &&& 0x1f) == v

/-- The opcode table of the specification, row by row: pattern, required total
bytes, command kind. The rows of the scan variants `0x11`, `0x19`, `0x1D` are
Scan Equal, Scan Low and Scan High. -/
def opcodeTable : List (OpcodePattern × Nat × FloppyCommand) :=
  [ (.whole 0x03, 3, FLOPPY_COMMAND_SPECIFY),
    (.whole 0x04, 2, FLOPPY_COMMAND_SENSE_DRIVE_STATUS),
    (.whole 0x07, 2, FLOPPY_COMMAND_RECALIBRATE),
    (.whole 0x08, 1, FLOPPY_COMMAND_SENSE_INTERRUPT_STATUS),
    (.whole 0x0F, 3, FLOPPY_COMMAND_SEEK),
    (.low5 0x02, 9, FLOPPY_COMMAND_READ_TRACK),
    (.low5 0x05, 9, FLOPPY_COMMAND_WRITE_DATA),
    (.low5 0x09, 9, FLOPPY_COMMAND_WRITE_DATA),
    (.low5 0x06, 9, FLOPPY_COMMAND_READ_DATA),
    (.low5 0x0C, 9, FLOPPY_COMMAND_READ_DATA),
    (.low5 0x0A, 2, FLOPPY_COMMAND_READ_ID),
    (.low5 0x0D, 6, FLOPPY_COMMAND_FORMAT_TRACK),
    (.low5 0x11, 9, FLOPPY_COMMAND_SCAN_EQUAL),
    (.low5 0x19, 9, FLOPPY_COMMAND_SCAN_LOW),
    (.low5 0x1D, 9, FLOPPY_COMMAND_SCAN_HIGH) ]

/-- The row of the table for first byte `b`: required length and command kind of
the first matching pattern, `none` when no pattern matches. -/
def tableRow (b : Nat) : Option (Nat × FloppyCommand) :=
  (opcodeTable.find? (fun row => row.1.matchesByte b)).map (fun row => row.2)

/-- The bytes that match no opcode pattern of the table. -/
def matchesNoPattern (b : Nat) : Prop :=
  b ∉ [0x03, 0x04, 0x07, 0x08, 0x0F] ∧
    (b &&& 0x1F) ∉ [0x02, 0x05, 0x09, 0x06, 0x0C, 0x0A, 0x0D, 0x11, 0x19, 0x1D]

instance (b : Nat) : Decidable (matchesNoPattern b) := by
  unfold matchesNoPattern; infer_instance

/-- A controller whose command buffer starts with `b` and holds `n` bytes. -/
def probe (b n : Nat) : CFloppyController :=
  { CFloppyController.ctor { fillAnswers := [], fillCalls := [] } with
    m_command := fun _ => b, m_commandlen := n }

open CFloppyController

/-- The table property of the classifier at first byte `b` and length `n`. -/
def tableProp (b n : Nat) : Prop :=
  ((probe b n).CheckCommand = FLOPPY_COMMAND_INVALID ↔ matchesNoPattern b) ∧
  (tableRow b = none ↔ matchesNoPattern b) ∧
  (∀ row ∈ tableRow b,
    (n < row.1 → (probe b n).CheckCommand = FLOPPY_COMMAND_INCOMPLETE) ∧
    (n = row.1 → (probe b n).CheckCommand = row.2))

instance (b n : Nat) : Decidable (tableProp b n) := by
  unfold tableProp; infer_instance


/-- The first bytes of the nine-byte transfer commands: low five bits among
`0x02, 0x05, 0x09, 0x06, 0x0C, 0x11, 0x19, 0x1D`. -/
def isTransferOpcode (b : Nat) : Prop :=
  (b &&& 0x1F) ∈ [0x02, 0x05, 0x09, 0x06, 0x0C, 0x11, 0x19, 0x1D]

instance (b : Nat) : Decidable (isTransferOpcode b) := by
  unfold isTransferOpcode; infer_instance

/-- The classification of a transfer opcode `b` at length `n`: Incomplete below
nine bytes, a command kind at nine. -/
def transferProp (b n : Nat) : Prop :=
  isTransferOpcode b →
    (n < 9 → (probe b n).CheckCommand = FLOPPY_COMMAND_INCOMPLETE) ∧
    (n = 9 → (probe b n).CheckCommand ≠ FLOPPY_COMMAND_INVALID ∧
      (probe b n).CheckCommand ≠ FLOPPY_COMMAND_INCOMPLETE)

instance (b n : Nat) : Decidable (transferProp b n) := by
  unfold transferProp; infer_instance

/-- The command buffer after the bytes `bs` have been appended one by one, with no
classification in between. -/
def pushAll (s : CFloppyController) : List Nat → CFloppyController
  | [] => s
  | b :: bs => pushAll (s.pushCommandByte b) bs

/-- The index of the first stop answer (`false`) in a sequence of continue/stop
answers; the length of the sequence's leading run of continue answers. -/
def firstStop : List Bool → Nat
  | [] => 0
  | false :: _ => 0
  | true :: rest => firstStop rest + 1

/-- The sector index of the `k`-th buffer-fill call when the first call uses sector
index `s0`: the index advances by one modulo 10 between calls. -/
def sectorFrom (s0 : Nat) : Nat → Nat
  | 0 => s0
  | k + 1 => (sectorFrom s0 k + 1) % 10

/-- The sector index of the `k`-th buffer-fill call of a Read Data command with
sector byte `R`: it starts at `R - 1` taken as an 8-bit value. -/
def sectorIndex (R : Nat) (k : Nat) : Nat :=
  sectorFrom ((((R : Int) - 1) % 256).toNat) k

/-- The byte offset of sector index `sec` on cylinder `C`, head `H`. -/
def sectorOffset (C H sec : Nat) : Nat :=
  (C * 2 + H) * 5120 + sec * 512

/-- A board for examples: the callback answers continue once, then stop. -/
def demoBoard : CMotherboard :=
  { fillAnswers := [true, false], fillCalls := [] }

/-- A drive for examples: attached read-write to a file of three bytes. -/
def demoDrive : CFloppyDrive :=
  { fpFile := some [1, 2, 3], okReadOnly := false, datatrack := 0, dataside := 0, dataptr := 0,
    data := some [1, 2, 3] }

/-- A controller for examples: freshly constructed, no drive attached. -/
def demoController : CFloppyController :=
  CFloppyController.ctor demoBoard

/-- A controller for examples: freshly constructed, then drive `d` attached. -/
def demoAttached (d : Nat) : CFloppyController :=
  { CFloppyController.ctor demoBoard with
    m_drivedata := fun i => if i = d then demoDrive else CFloppyDrive.ctor }

/-- A controller for examples: the first byte `0x0F` of a Seek command has been
written to the freshly constructed controller, two more bytes are awaited. -/
def seekPending : CFloppyController :=
  demoController.pushCommandByte 0x0F

/-- The first bytes of Read Data: low five bits `0x06` or `0x0C`. -/
def isReadOpcode (b : Nat) : Prop :=
  (b &&& 0x1F) = 0x06 ∨ (b &&& 0x1F) = 0x0C

instance (b : Nat) : Decidable (isReadOpcode b) := by
  unfold isReadOpcode; infer_instance

/-- The first bytes of Write Data: low five bits `0x05` or `0x09`. -/
def isWriteOpcode (b : Nat) : Prop :=
  (b &&& 0x1F) = 0x05 ∨ (b &&& 0x1F) = 0x09

instance (b : Nat) : Decidable (isWriteOpcode b) := by
  unfold isWriteOpcode; infer_instance

/-- The classification of Read Data and Write Data opcodes at nine bytes. -/
def readWriteProp (b : Nat) : Prop :=
  (isReadOpcode b → isTransferOpcode b ∧
    (probe b 9).CheckCommand = FLOPPY_COMMAND_READ_DATA) ∧
  (isWriteOpcode b → isTransferOpcode b ∧
    (probe b 9).CheckCommand = FLOPPY_COMMAND_WRITE_DATA)

instance (b : Nat) : Decidable (readWriteProp b) := by
  unfold readWriteProp; infer_instance

/-! ## Status register, tick, attach and detach -/

namespace CFloppyController

/-- The method `GetState`: the status byte and the state afterwards. The bit masks
`FLOPPY_MSR_RQM`, `FLOPPY_MSR_DIO` and `FLOPPY_MSR_CB` are defined in `Emubase.h`,
which is not among the sources, and are parameters here; `msr` is a `uint8_t`. -/
def GetState ( FLOPPY_MSR_RQM FLOPPY_MSR_DIO FLOPPY_MSR_CB : Nat) (s : CFloppyController) :
    Nat × CFloppyController :=
  let msr := 0
  let msr :=
    match s.m_phase with
    | FLOPPY_PHASE_CMD => (msr ||| FLOPPY_MSR_RQM) % 256
    | FLOPPY_PHASE_EXEC => (msr ||| FLOPPY_MSR_CB) % 256
    | FLOPPY_PHASE_RESULT =>
      (msr ||| (FLOPPY_MSR_RQM ||| FLOPPY_MSR_DIO ||| FLOPPY_MSR_CB)) % 256
  (msr, s)

/-- The method `Periodic`: the guard on the selected drive and an empty body
(`m_pDrive` is never null). -/
def Periodic (s : CFloppyController) : CFloppyController :=
  if !s.IsAttached s.m_drive then s
  else s

/-- The array store `m_drivedata[drive] = d`. -/
def setDrive (s : CFloppyController) (drive : Nat) (d : CFloppyDrive) : CFloppyController :=
  { s with m_drivedata := fun j => if j = drive then d else s.m_drivedata j }

/-- The method `DetachImage`. Closing the file and freeing the buffer leave a null
handle and a null buffer pointer. -/
def DetachImage (s : CFloppyController) (drive : Nat) : CFloppyController :=
  if (s.m_drivedata drive).fpFile.isNone then s
  else
    let s := s.FlushChanges
    let s := s.setDrive drive { s.m_drivedata drive with fpFile := none }
    let s := s.setDrive drive { s.m_drivedata drive with okReadOnly := false }
    let s := s.setDrive drive { s.m_drivedata drive with data := none }
    s.setDrive drive (s.m_drivedata drive).Reset

/-- The size of the backing buffer, `800 * 1024` bytes. -/
def imageSize : Nat := 800 * 1024

/-- The library call `fread(buf, 1, n, f)` on a stream with unread bytes `h`: the
first `n` unread bytes overwrite the start of the buffer `buf`. -/
def freadInto (buf h : List Nat) (n : Nat) : List Nat :=
  h.take n ++ buf.drop (h.take n).length

/-- The method `AttachImage`. The host file system is not part of the program:
`openRW` and `openRO` are the outcomes of `_tfsopen(sFileName, "r+b")` and
`_tfsopen(sFileName, "rb")`, `none` for a failed open and otherwise the bytes
of the file. `calloc` is taken to succeed and gives a zeroed buffer. `fread`
reads from `m_pDrive->fpFile` and advances that stream; on a null stream its
behaviour is undefined and the result is `none`. The `bool` returned comes
first. -/
def AttachImage (s : CFloppyController) (drive : Nat) (openRW openRO : Option (List Nat)) :
    Option (Bool × CFloppyController) :=
  let s := if (s.m_drivedata drive).fpFile.isSome then s.DetachImage drive else s
  let s := s.setDrive drive { s.m_drivedata drive with okReadOnly := false }
  let s := s.setDrive drive { s.m_drivedata drive with fpFile := openRW }
  let s :=
    if (s.m_drivedata drive).fpFile.isNone then
      let s := s.setDrive drive { s.m_drivedata drive with okReadOnly := true }
      s.setDrive drive { s.m_drivedata drive with fpFile := openRO }
    else s
  if (s.m_drivedata drive).fpFile.isNone then some (false, s)
  else
    let s := s.setDrive drive { s.m_drivedata drive with
      data := some (List.replicate imageSize 0) }
    match (s.m_drivedata s.m_pDrive).fpFile, (s.m_drivedata drive).data with
    | some h, some buf =>
      let s := s.setDrive s.m_pDrive { s.m_drivedata s.m_pDrive with
        fpFile := some (h.drop imageSize) }
      let s := s.setDrive drive { s.m_drivedata drive with
        data := some (freadInto buf h imageSize) }
      let s := { s with m_side := 0, m_track := 0 }
      let s := s.setDrive drive { s.m_drivedata drive with datatrack := 0, dataside := 0 }
      let s := s.setDrive drive { s.m_drivedata drive with dataptr := 0 }
      some (true, s)
    | _, _ => none

end CFloppyController

/-- A call of the host on the controller's register interface. -/
inductive HostCall where
  | fifoWrite (data : Nat)
  | fifoRead
  | getState
  | periodic

/-- A sequence of host calls, run in order: the bytes the `FifoRead` calls
returned, and the state afterwards. -/
def runCalls ( FLOPPY_MSR_RQM FLOPPY_MSR_DIO FLOPPY_MSR_CB : Nat) :
    CFloppyController → List HostCall → Option (List Nat × CFloppyController)
  | s, [] => some ([], s)
  | s, .fifoWrite data :: rest =>
    match s.FifoWrite data with
    | none => none
    | some s1 => runCalls FLOPPY_MSR_RQM FLOPPY_MSR_DIO FLOPPY_MSR_CB s1 rest
  | s, .fifoRead :: rest =>
    match runCalls FLOPPY_MSR_RQM FLOPPY_MSR_DIO FLOPPY_MSR_CB s.FifoRead.2 rest with
    | none => none
    | some (out, s1) => some (s.FifoRead.1 :: out, s1)
  | s, .getState :: rest =>
    runCalls FLOPPY_MSR_RQM FLOPPY_MSR_DIO FLOPPY_MSR_CB
      (s.GetState FLOPPY_MSR_RQM FLOPPY_MSR_DIO FLOPPY_MSR_CB).2 rest
  | s, .periodic :: rest =>
    runCalls FLOPPY_MSR_RQM FLOPPY_MSR_DIO FLOPPY_MSR_CB s.Periodic rest

/-- The number of `FifoRead` calls in a sequence of host calls. -/
def countReads : List HostCall → Nat
  | [] => 0
  | .fifoRead :: rest => countReads rest + 1
  | _ :: rest => countReads rest

/-- A controller for examples: in Execution phase, as an unimplemented command
leaves it. -/
def demoStalled : CFloppyController :=
  { demoController with m_phase := FLOPPY_PHASE_EXEC }

/-- A controller for examples: in Result phase with the two result bytes of Sense
Interrupt Status staged and none read yet. -/
def demoResult : CFloppyController :=
  { demoController with
    m_phase := FLOPPY_PHASE_RESULT, m_result := setAt (setAt (fun _ => 0) 0 0x20) 1 0x00,
    m_resultlen := 2, m_resultpos := 0 }

/-- Every row of the opcode table for first byte `b` asks for one to nine bytes
and names a command kind; only Sense Interrupt Status asks for one byte. -/
def rowProp (b : Nat) : Prop :=
  ∀ row ∈ tableRow b, 1 ≤ row.1 ∧ row.1 ≤ 9 ∧
    row.2 ≠ FLOPPY_COMMAND_INVALID ∧ row.2 ≠ FLOPPY_COMMAND_INCOMPLETE ∧
    (row.1 = 1 ↔ row.2 = FLOPPY_COMMAND_SENSE_INTERRUPT_STATUS)

instance (b : Nat) : Decidable (rowProp b) := by
  unfold rowProp; infer_instance

/-- The command kinds the executor has no case for. -/
def isUnimplemented (k : FloppyCommand) : Prop :=
  k = FLOPPY_COMMAND_READ_TRACK ∨ k = FLOPPY_COMMAND_SENSE_DRIVE_STATUS ∨
  k = FLOPPY_COMMAND_READ_ID ∨ k = FLOPPY_COMMAND_FORMAT_TRACK ∨
  k = FLOPPY_COMMAND_SCAN_EQUAL ∨ k = FLOPPY_COMMAND_SCAN_LOW ∨ k = FLOPPY_COMMAND_SCAN_HIGH

instance (k : FloppyCommand) : Decidable (isUnimplemented k) := by
  unfold isUnimplemented; infer_instance

/-! ## Reachable states and sector bounds -/

/-- A call on the controller's public interface, with its arguments. For
`AttachImage` the arguments are the drive index and the outcomes of the two
open attempts on the file named. -/
inductive ControllerCall where
  | fifoWrite (data : Nat)
  | fifoRead
  | getState
  | reset
  | periodic
  | attachImage (drive : Nat) (openRW openRO : Option (List Nat))
  | detachImage (drive : Nat)

/-- The arguments a call can really carry: `FifoWrite` takes a byte, and the drive
index of `AttachImage` and `DetachImage` is 0 to 3. -/
def ControllerCall.wellFormed : ControllerCall → Prop
  | .fifoWrite data => data < 256
  | .attachImage drive _ _ => drive < 4
  | .detachImage drive => drive < 4
  | _ => True

instance (c : ControllerCall) : Decidable c.wellFormed := by
  cases c <;> unfold ControllerCall.wellFormed <;> infer_instance

/-- One call on the controller: the state afterwards, `none` when the call does
not return (a Read Data whose callback never answers stop) or is undefined
(`fread` on a null stream). -/
def stepCall ( FLOPPY_MSR_RQM FLOPPY_MSR_DIO FLOPPY_MSR_CB : Nat) (s : CFloppyController) :
    ControllerCall → Option CFloppyController
  | .fifoWrite data => s.FifoWrite data
  | .fifoRead => some s.FifoRead.2
  | .getState => some (s.GetState FLOPPY_MSR_RQM FLOPPY_MSR_DIO FLOPPY_MSR_CB).2
  | .reset => some s.Reset
  | .periodic => some s.Periodic
  | .attachImage drive openRW openRO =>
    match s.AttachImage drive openRW openRO with
    | none => none
    | some r => some r.2
  | .detachImage drive => some (s.DetachImage drive)

/-- A sequence of calls on the controller, run in order. -/
def runController ( FLOPPY_MSR_RQM FLOPPY_MSR_DIO FLOPPY_MSR_CB : Nat) :
    CFloppyController → List ControllerCall → Option CFloppyController
  | s, [] => some s
  | s, c :: rest =>
    match stepCall FLOPPY_MSR_RQM FLOPPY_MSR_DIO FLOPPY_MSR_CB s c with
    | none => none
    | some s1 => runController FLOPPY_MSR_RQM FLOPPY_MSR_DIO FLOPPY_MSR_CB s1 rest

/-- The buffer-bounds invariant: at most 8 command bytes are buffered, none outside
Command phase, and fewer than the command of the first buffered byte needs;
the result cursor is at most the result length, which is at most 7; in Result
phase the cursor is below the length. -/
def bufferBounds (s : CFloppyController) : Prop :=
  s.m_commandlen ≤ 8 ∧
  (s.m_phase ≠ FLOPPY_PHASE_CMD → s.m_commandlen = 0) ∧
  (1 ≤ s.m_commandlen →
    ∃ r k, tableRow (s.m_command 0) = some (r, k) ∧ s.m_commandlen < r) ∧
  s.m_resultpos ≤ s.m_resultlen ∧ s.m_resultlen ≤ 7 ∧
  (s.m_phase = FLOPPY_PHASE_RESULT → s.m_resultpos < s.m_resultlen)

/-- The calls of an example: Read Data for drive 0 with cylinder byte `0xFF`,
then three reads of the result. -/
def demoCalls : List ControllerCall :=
  [.fifoWrite 0x06, .fifoWrite 0x00, .fifoWrite 0xFF, .fifoWrite 0x00, .fifoWrite 0x01,
   .fifoWrite 0x02, .fifoWrite 0x0A, .fifoWrite 0x1B, .fifoWrite 0xFF,
   .fifoRead, .fifoRead, .fifoRead]

/-- The state of an example: the freshly constructed controller after `demoCalls`,
with masks `0x80`, `0x40`, `0x10`. -/
def demoReached : CFloppyController :=
  (runController 0x80 0x40 0x10 demoController demoCalls).getD demoController
/-! ## Classifier lemmas -/

theorem CheckCommand_congr (s t : CFloppyController) (h0 : t.m_command 0 = s.m_command 0)
    (hn : t.m_commandlen = s.m_commandlen) : t.CheckCommand = s.CheckCommand := by
  unfold CheckCommand
  rw [h0, hn]

theorem CheckCommand_probe (s : CFloppyController) :
    s.CheckCommand = (probe (s.m_command 0) s.m_commandlen).CheckCommand :=
  CheckCommand_congr _ _ rfl rfl

set_option maxRecDepth 100000 in
theorem probe_table : ∀ b < 256, ∀ n < 10, 1 ≤ n → tableProp b n := by
  decide

/-- C1: `CheckCommand` equals the opcode table. For a first command byte `b` and an
accumulated length `n` with `1 ≤ n ≤ 9`, the classification is Invalid exactly
when `b` matches no pattern of the table (whatever `n` is), the table has a row
for every other byte, and with `(r, k)` the row of `b` the classification is
Incomplete when `n < r` and the kind `k` when `n = r`; two controllers that
agree on the first byte and the length get the same classification. -/
theorem C1_CheckCommand_table (s : CFloppyController) (b n : Nat) (hb : b < 256)
    (h1 : 1 ≤ n) (h9 : n ≤ 9) (h0 : s.m_command 0 = b) (hn : s.m_commandlen = n) :
    (s.CheckCommand = FLOPPY_COMMAND_INVALID ↔ matchesNoPattern b) ∧
    (tableRow b = none ↔ matchesNoPattern b) ∧
    (∀ r k, tableRow b = some (r, k) →
      (n < r → s.CheckCommand = FLOPPY_COMMAND_INCOMPLETE) ∧ (n = r → s.CheckCommand = k)) ∧
    (∀ t : CFloppyController, t.m_command 0 = b → t.m_commandlen = n →
      t.CheckCommand = s.CheckCommand) := by
  have hp := probe_table b hb n (by omega) h1
  unfold tableProp at hp
  have hs : s.CheckCommand = (probe b n).CheckCommand := by
    rw [CheckCommand_probe s, h0, hn]
  refine ⟨?_, hp.2.1, ?_, ?_⟩
  · rw [hs]; exact hp.1
  · intro r k hrow
    have h3 := hp.2.2 (r, k) hrow
    rw [hs]
    exact h3
  · intro t ht0 htn
    exact CheckCommand_congr s t (by rw [ht0, h0]) (by rw [htn, hn])

theorem C1_CheckCommand_table_witness :
    ((probe 0x46 9).CheckCommand = FLOPPY_COMMAND_INVALID ↔ matchesNoPattern 0x46) ∧
    (tableRow 0x46 = none ↔ matchesNoPattern 0x46) ∧
    (∀ r k, tableRow 0x46 = some (r, k) →
      (9 < r → (probe 0x46 9).CheckCommand = FLOPPY_COMMAND_INCOMPLETE) ∧
      (9 = r → (probe 0x46 9).CheckCommand = k)) ∧
    (∀ t : CFloppyController, t.m_command 0 = 0x46 → t.m_commandlen = 9 →
      t.CheckCommand = (probe 0x46 9).CheckCommand) :=
  C1_CheckCommand_table (probe 0x46 9) 0x46 9 (by decide) (by decide) (by decide) rfl rfl

/-! ## Step lemmas -/

theorem pushCommandByte_first (s : CFloppyController) (v : Nat) (h : s.m_commandlen = 0) :
    (s.pushCommandByte v).m_command 0 = v := by
  simp [pushCommandByte, setAt, h]

theorem pushCommandByte_later (s : CFloppyController) (v : Nat) (h : s.m_commandlen ≠ 0) :
    (s.pushCommandByte v).m_command 0 = s.m_command 0 := by
  simp only [pushCommandByte, setAt]
  rw [if_neg (fun h0 => h h0.symm)]

theorem FifoWrite_incomplete (s : CFloppyController) (v : Nat)
    (hp : s.m_phase = FLOPPY_PHASE_CMD)
    (hc : (s.pushCommandByte v).CheckCommand = FLOPPY_COMMAND_INCOMPLETE) :
    s.FifoWrite v = some (s.pushCommandByte v) := by
  simp [FifoWrite, hp, hc]

theorem FifoWrite_invalid (s : CFloppyController) (v : Nat)
    (hp : s.m_phase = FLOPPY_PHASE_CMD)
    (hc : (s.pushCommandByte v).CheckCommand = FLOPPY_COMMAND_INVALID) :
    s.FifoWrite v = some { s.pushCommandByte v with
      m_phase := FLOPPY_PHASE_RESULT, m_result := setAt (s.pushCommandByte v).m_result 0 0x80,
      m_resultlen := 1, m_resultpos := 0, m_commandlen := 0 } := by
  simp [FifoWrite, hp, hc]

theorem FifoWrite_valid (s : CFloppyController) (v : Nat)
    (hp : s.m_phase = FLOPPY_PHASE_CMD)
    (h1 : (s.pushCommandByte v).CheckCommand ≠ FLOPPY_COMMAND_INCOMPLETE)
    (h2 : (s.pushCommandByte v).CheckCommand ≠ FLOPPY_COMMAND_INVALID) :
    s.FifoWrite v = (s.pushCommandByte v).StartCommand (s.pushCommandByte v).CheckCommand := by
  simp [FifoWrite, hp, h1, h2]

theorem FifoRead_cmd (s : CFloppyController) (hp : s.m_phase = FLOPPY_PHASE_CMD) :
    s.FifoRead = (0xff, s) := by
  simp [FifoRead, hp]

theorem readMany_cmd (n : Nat) (s : CFloppyController) (hp : s.m_phase = FLOPPY_PHASE_CMD) :
    readMany n s = (List.replicate n 0xff, s) := by
  induction n with
  | zero => rfl
  | succ n ih => simp [readMany, FifoRead_cmd s hp, ih, List.replicate_succ]

theorem submit_append (s : CFloppyController) (xs ys : List Nat) :
    s.submit (xs ++ ys) = (s.submit xs).bind (fun t => t.submit ys) := by
  induction xs generalizing s with
  | nil => simp [submit]
  | cons x xs ih =>
    simp only [List.cons_append, submit]
    cases h : s.FifoWrite x with
    | none => simp
    | some t => simpa using ih t

theorem pushAll_append (s : CFloppyController) (xs ys : List Nat) :
    pushAll s (xs ++ ys) = pushAll (pushAll s xs) ys := by
  induction xs generalizing s with
  | nil => rfl
  | cons x xs ih => simpa [pushAll] using ih (s.pushCommandByte x)

theorem pushAll_frame (s : CFloppyController) (bs : List Nat) :
    (pushAll s bs).m_phase = s.m_phase ∧
    (pushAll s bs).m_commandlen = s.m_commandlen + bs.length ∧
    (pushAll s bs).m_result = s.m_result ∧
    (pushAll s bs).m_resultlen = s.m_resultlen ∧
    (pushAll s bs).m_resultpos = s.m_resultpos ∧
    (pushAll s bs).m_pBoard = s.m_pBoard ∧
    (pushAll s bs).m_drivedata = s.m_drivedata ∧
    (pushAll s bs).m_drive = s.m_drive := by
  induction bs generalizing s with
  | nil => simp [pushAll]
  | cons b bs ih =>
    have h := ih (s.pushCommandByte b)
    simp only [pushAll, List.length_cons]
    refine ⟨h.1, ?_, h.2.2.1, h.2.2.2.1, h.2.2.2.2.1, h.2.2.2.2.2.1, h.2.2.2.2.2.2.1,
      h.2.2.2.2.2.2.2⟩
    rw [h.2.1]
    simp only [pushCommandByte]
    omega

set_option maxRecDepth 100000 in
theorem transfer_classify : ∀ b < 256, ∀ n < 10, 1 ≤ n → transferProp b n := by
  decide

/-- While a transfer command is being entered every byte is classified Incomplete,
so `submit` only appends. -/
theorem submit_transfer_incomplete (op : Nat) (hop : op < 256) (ht : isTransferOpcode op) :
    ∀ (bs : List Nat) (t : CFloppyController), t.m_phase = FLOPPY_PHASE_CMD →
      (t.m_commandlen ≠ 0 → t.m_command 0 = op) →
      (t.m_commandlen = 0 → ∀ b ∈ bs.head?, b = op) →
      t.m_commandlen + bs.length ≤ 8 →
      t.submit bs = some (pushAll t bs) ∧
      ((pushAll t bs).m_commandlen ≠ 0 → (pushAll t bs).m_command 0 = op ∧
        (pushAll t bs).CheckCommand = FLOPPY_COMMAND_INCOMPLETE ∨ bs = []) := by
  intro bs
  induction bs with
  | nil =>
    intro t _ _ _ _
    exact ⟨rfl, fun _ => Or.inr rfl⟩
  | cons b bs ih =>
    intro t hp h1 h0 hl
    simp only [List.length_cons] at hl
    have hfirst : (t.pushCommandByte b).m_command 0 = op := by
      by_cases hz : t.m_commandlen = 0
      · rw [pushCommandByte_first t b hz]
        exact h0 hz b (by simp)
      · rw [pushCommandByte_later t b hz]
        exact h1 hz
    have hlen1 : (t.pushCommandByte b).m_commandlen = t.m_commandlen + 1 := rfl
    have hinc : (t.pushCommandByte b).CheckCommand = FLOPPY_COMMAND_INCOMPLETE := by
      rw [CheckCommand_probe, hfirst, hlen1]
      exact ((transfer_classify op hop (t.m_commandlen + 1) (by omega) (by omega)) ht).1
        (by omega)
    have hw := FifoWrite_incomplete t b hp hinc
    have hrec := ih (t.pushCommandByte b) hp (fun _ => hfirst)
      (fun hz => by rw [hlen1] at hz; omega) (by rw [hlen1]; omega)
    refine ⟨?_, ?_⟩
    · simp only [submit, hw, pushAll]
      exact hrec.1
    · intro _
      left
      simp only [pushAll]
      cases bs with
      | nil => exact ⟨hfirst, hinc⟩
      | cons c cs =>
        have hne : (pushAll (t.pushCommandByte b) (c :: cs)).m_commandlen ≠ 0 := by
          rw [(pushAll_frame _ _).2.1, hlen1]; omega
        rcases hrec.2 hne with h | h
        · exact h
        · exact absurd h (by simp)

theorem ExecuteCommand_commandlen (a u : CFloppyController) (cmd : FloppyCommand)
    (h : a.ExecuteCommand cmd = some u) : u.m_commandlen = a.m_commandlen := by
  cases cmd <;> simp only [ExecuteCommand] at h
  case FLOPPY_COMMAND_READ_DATA =>
    split at h
    · cases h; rfl
    · split at h
      · cases h
      · cases h; rfl
  all_goals (cases h; rfl)

theorem StartCommand_commandlen (a u : CFloppyController) (cmd : FloppyCommand)
    (h : a.StartCommand cmd = some u) : u.m_commandlen = 0 := by
  simp only [StartCommand] at h
  rw [ExecuteCommand_commandlen _ _ _ h]
  split <;> rfl

theorem FifoRead_frame (u : CFloppyController) :
    u.FifoRead.2.m_pBoard = u.m_pBoard ∧ u.FifoRead.2.m_result = u.m_result ∧
    u.FifoRead.2.m_resultlen = u.m_resultlen ∧ u.FifoRead.2.m_commandlen = u.m_commandlen ∧
    u.FifoRead.2.m_command = u.m_command ∧ u.FifoRead.2.m_drivedata = u.m_drivedata ∧
    u.FifoRead.2.m_drive = u.m_drive := by
  unfold FifoRead
  split
  · simp
  · simp
  · simp only
    split <;> split <;> simp

/-! ## The transfer loop -/

theorem sectorFrom_shift (s0 k : Nat) :
    sectorFrom s0 (k + 1) = sectorFrom ((s0 + 1) % 10) k := by
  induction k with
  | zero => rfl
  | succ k ih =>
    show (sectorFrom s0 (k + 1) + 1) % 10 = (sectorFrom ((s0 + 1) % 10) k + 1) % 10
    rw [ih]

theorem firstStop_spec (answers : List Bool) (h : false ∈ answers) :
    answers[firstStop answers]? = some false ∧
    ∀ j < firstStop answers, answers[j]? = some true := by
  induction answers with
  | nil => simp at h
  | cons a rest ih =>
    cases a with
    | false => simp [firstStop]
    | true =>
      have hr : false ∈ rest := by simpa using h
      obtain ⟨h1, h2⟩ := ih hr
      refine ⟨by simpa [firstStop] using h1, ?_⟩
      intro j hj
      cases j with
      | zero => simp
      | succ j =>
        simp only [firstStop] at hj
        simpa using h2 j (by omega)

/-- The loop returns exactly when the answers contain a stop; it then has made
one call per answer up to and including the first stop, at the offsets of the
successive sector indices, always into the buffer of slot 0. -/
theorem readDataLoop_spec (c2 c3 : Nat) :
    ∀ (answers : List Bool) (sector : Nat) (calls : List FillCall), false ∈ answers →
      readDataLoop c2 c3 sector answers calls =
        some { fillAnswers := answers.drop (firstStop answers + 1),
               fillCalls := calls ++ (List.range (firstStop answers + 1)).map
                 (fun j => { slot := 0, offset := sectorOffset c2 c3 (sectorFrom sector j) }) } := by
  intro answers
  induction answers with
  | nil => intro _ _ h; simp at h
  | cons a rest ih =>
    intro sector calls h
    cases a with
    | false =>
      simp [readDataLoop, firstStop, sectorOffset, sectorFrom, List.range_succ]
    | true =>
      have hr : false ∈ rest := by simpa using h
      simp only [readDataLoop, firstStop, Bool.not_true, Bool.false_eq_true, if_false]
      rw [ih ((sector + 1) % 10) _ hr]
      simp only [List.drop_succ_cons, List.append_assoc, List.singleton_append]
      congr 2
      rw [List.range_succ_eq_map (firstStop rest + 1), List.map_cons, List.map_map]
      simp only [Function.comp_def, Nat.succ_eq_add_one, sectorFrom_shift]
      rfl

theorem readDataLoop_none (c2 c3 : Nat) :
    ∀ (answers : List Bool) (sector : Nat) (calls : List FillCall), false ∉ answers →
      readDataLoop c2 c3 sector answers calls = none := by
  intro answers
  induction answers with
  | nil => intro _ _ _; rfl
  | cons a rest ih =>
    intro sector calls h
    cases a with
    | false => simp at h
    | true =>
      simp only [readDataLoop, Bool.not_true, Bool.false_eq_true, if_false]
      exact ih _ _ (by simpa using h)

/-! ## The executor on Read Data and Write Data -/

theorem and_three_ne_ff (x : Nat) : x &&& 3 ≠ 0xff := by
  have h : x &&& 3 ≤ 3 := Nat.and_le_right
  omega

theorem StartCommand_read_unattached (a : CFloppyController)
    (h : a.IsAttached (a.m_command 1 &&& 3) = false) :
    ∃ u, a.StartCommand FLOPPY_COMMAND_READ_DATA = some u ∧
      u.m_phase = FLOPPY_PHASE_RESULT ∧ u.m_int = true ∧
      u.m_resultlen = 7 ∧ u.m_resultpos = 0 ∧ u.m_commandlen = 0 ∧
      u.m_result 0 = 0xC8 ||| (a.m_command 1 &&& 3) ∧
      u.m_result 1 = 0 ∧ u.m_result 2 = 0 ∧ u.m_result 3 = a.m_command 2 ∧
      u.m_result 4 = a.m_command 3 ∧ u.m_result 5 = a.m_command 4 ∧
      u.m_result 6 = a.m_command 5 ∧
      u.m_pBoard = a.m_pBoard ∧ u.m_drive = a.m_command 1 &&& 3 ∧
      u.m_drivedata = a.m_drivedata := by
  have hne := and_three_ne_ff (a.m_command 1)
  have h2 : (a.m_drivedata (a.m_command 1 &&& 3)).fpFile.isSome = false := h
  simp [StartCommand, ExecuteCommand, IsAttached, hne, h2, setAt]

theorem StartCommand_read_attached (a : CFloppyController)
    (h : a.IsAttached (a.m_command 1 &&& 3) = true)
    (hs : false ∈ a.m_pBoard.fillAnswers) :
    ∃ u, a.StartCommand FLOPPY_COMMAND_READ_DATA = some u ∧
      u.m_phase = FLOPPY_PHASE_RESULT ∧ u.m_int = true ∧
      u.m_resultlen = 7 ∧ u.m_resultpos = 0 ∧ u.m_commandlen = 0 ∧
      u.m_result 0 = 0x20 ||| (a.m_command 1 &&& 3) ∧
      u.m_result 1 = 0 ∧ u.m_result 2 = 0 ∧ u.m_result 3 = a.m_command 2 ∧
      u.m_result 4 = a.m_command 3 ∧ u.m_result 5 = a.m_command 4 ∧
      u.m_result 6 = a.m_command 5 ∧
      u.m_pBoard =
        { fillAnswers := a.m_pBoard.fillAnswers.drop (firstStop a.m_pBoard.fillAnswers + 1),
          fillCalls := a.m_pBoard.fillCalls ++
            (List.range (firstStop a.m_pBoard.fillAnswers + 1)).map (fun j =>
              { slot := 0,
                offset := sectorOffset (a.m_command 2) (a.m_command 3)
                  (sectorFrom ((a.m_command 4 + 255) % 256) j) }) } ∧
      u.m_drive = a.m_command 1 &&& 3 ∧ u.m_drivedata = a.m_drivedata := by
  have h2 : (a.m_drivedata (a.m_command 1 &&& 3)).fpFile.isSome = true := h
  simp [StartCommand, ExecuteCommand, IsAttached, h2, setAt, readDataLoop_spec _ _ _ _ _ hs]

theorem StartCommand_write (a : CFloppyController) :
    ∃ u, a.StartCommand FLOPPY_COMMAND_WRITE_DATA = some u ∧
      u.m_phase = FLOPPY_PHASE_RESULT ∧ u.m_int = true ∧
      u.m_resultlen = 7 ∧ u.m_resultpos = 0 ∧ u.m_commandlen = 0 ∧
      u.m_result 0 = 0x20 ||| (a.m_command 1 &&& 3) ∧
      u.m_result 1 = 0 ∧ u.m_result 2 = 0 ∧ u.m_result 3 = a.m_command 2 ∧
      u.m_result 4 = a.m_command 3 ∧ u.m_result 5 = a.m_command 4 ∧
      u.m_result 6 = a.m_command 5 ∧
      u.m_pBoard = a.m_pBoard ∧ u.m_drive = a.m_command 1 &&& 3 ∧
      u.m_drivedata = a.m_drivedata := by
  simp [StartCommand, ExecuteCommand, setAt]

theorem StartCommand_returns (a : CFloppyController) (cmd : FloppyCommand)
    (h : cmd ≠ FLOPPY_COMMAND_READ_DATA ∨ a.IsAttached (a.m_command 1 &&& 3) = false ∨
      false ∈ a.m_pBoard.fillAnswers) :
    ∃ u, a.StartCommand cmd = some u := by
  by_cases hc : cmd = FLOPPY_COMMAND_READ_DATA
  · subst hc
    by_cases hatt : a.IsAttached (a.m_command 1 &&& 3) = true
    · rcases h with h | h | h
      · exact absurd rfl h
      · rw [hatt] at h; cases h
      · obtain ⟨u, hu, _⟩ := StartCommand_read_attached a hatt h
        exact ⟨u, hu⟩
    · obtain ⟨u, hu, _⟩ := StartCommand_read_unattached a (by simpa using hatt)
      exact ⟨u, hu⟩
  · cases cmd <;> first | exact absurd rfl hc | simp [StartCommand, ExecuteCommand]

theorem pushAll_snoc (s : CFloppyController) (xs : List Nat) (b : Nat) :
    (pushAll s xs).pushCommandByte b = pushAll s (xs ++ [b]) := by
  rw [pushAll_append]; rfl

/-- The command buffer after nine bytes were appended to an empty one. -/
theorem pushAll_nine (s : CFloppyController) (c0 c1 c2 c3 c4 c5 c6 c7 c8 : Nat)
    (hlen : s.m_commandlen = 0) :
    (pushAll s [c0, c1, c2, c3, c4, c5, c6, c7, c8]).m_command 0 = c0 ∧
    (pushAll s [c0, c1, c2, c3, c4, c5, c6, c7, c8]).m_command 1 = c1 ∧
    (pushAll s [c0, c1, c2, c3, c4, c5, c6, c7, c8]).m_command 2 = c2 ∧
    (pushAll s [c0, c1, c2, c3, c4, c5, c6, c7, c8]).m_command 3 = c3 ∧
    (pushAll s [c0, c1, c2, c3, c4, c5, c6, c7, c8]).m_command 4 = c4 ∧
    (pushAll s [c0, c1, c2, c3, c4, c5, c6, c7, c8]).m_command 5 = c5 := by
  simp [pushAll, pushCommandByte, setAt, hlen]

/-- Nine bytes of a transfer command, submitted from Command phase with an empty
command buffer, are one `StartCommand` on the filled command buffer. -/
theorem submit_transfer_nine (s : CFloppyController) (op b1 b2 b3 b4 b5 b6 b7 b8 : Nat)
    (hop : op < 256) (ht : isTransferOpcode op)
    (hphase : s.m_phase = FLOPPY_PHASE_CMD) (hlen : s.m_commandlen = 0) :
    s.submit [op, b1, b2, b3, b4, b5, b6, b7] = some (pushAll s [op, b1, b2, b3, b4, b5, b6, b7]) ∧
    (pushAll s [op, b1, b2, b3, b4, b5, b6, b7, b8]).CheckCommand = (probe op 9).CheckCommand ∧
    (pushAll s [op, b1, b2, b3, b4, b5, b6, b7]).FifoWrite b8 =
      (pushAll s [op, b1, b2, b3, b4, b5, b6, b7, b8]).StartCommand (probe op 9).CheckCommand ∧
    s.submit [op, b1, b2, b3, b4, b5, b6, b7, b8] =
      (pushAll s [op, b1, b2, b3, b4, b5, b6, b7, b8]).StartCommand (probe op 9).CheckCommand := by
  have h1 := (submit_transfer_incomplete op hop ht [op, b1, b2, b3, b4, b5, b6, b7] s hphase
    (fun h => absurd hlen h) (fun _ => by simp) (by rw [hlen]; simp)).1
  have hf8 := pushAll_frame s [op, b1, b2, b3, b4, b5, b6, b7]
  have hf9 := pushAll_frame s [op, b1, b2, b3, b4, b5, b6, b7, b8]
  have hph : (pushAll s [op, b1, b2, b3, b4, b5, b6, b7]).m_phase = FLOPPY_PHASE_CMD := by
    rw [hf8.1, hphase]
  have hcls := (transfer_classify op hop 9 (by omega) (by omega) ht).2 rfl
  have hchk : (pushAll s [op, b1, b2, b3, b4, b5, b6, b7, b8]).CheckCommand
      = (probe op 9).CheckCommand := by
    apply CheckCommand_congr
    · exact (pushAll_nine s op b1 b2 b3 b4 b5 b6 b7 b8 hlen).1
    · rw [hf9.2.1, hlen]; rfl
  have hsn := pushAll_snoc s [op, b1, b2, b3, b4, b5, b6, b7] b8
  simp only [List.cons_append, List.nil_append] at hsn
  have hfw := FifoWrite_valid (pushAll s [op, b1, b2, b3, b4, b5, b6, b7]) b8 hph
    (by rw [hsn, hchk]; exact hcls.2) (by rw [hsn, hchk]; exact hcls.1)
  rw [hsn, hchk] at hfw
  refine ⟨h1, hchk, hfw, ?_⟩
  have := submit_append s [op, b1, b2, b3, b4, b5, b6, b7] [b8]
  simp only [List.cons_append, List.nil_append] at this
  rw [this, h1, ← hfw]
  simp only [Option.some_bind, submit]
  cases (pushAll s [op, b1, b2, b3, b4, b5, b6, b7]).FifoWrite b8 <;> rfl

set_option maxRecDepth 100000 in
theorem readWrite_classify : ∀ b < 256, readWriteProp b := by
  decide

theorem sectorIndex_eq (R k : Nat) :
    sectorIndex R k = sectorFrom ((R + 255) % 256) k := by
  unfold sectorIndex
  congr 1
  omega

/-- A complete Read Data command submitted from Command phase with an empty
command buffer is one `StartCommand` of kind Read Data on the filled buffer. -/
theorem submit_read_data (s : CFloppyController) (op b1 C H R N EOT GPL DTL : Nat)
    (hop : op < 256) (hrd : isReadOpcode op)
    (hphase : s.m_phase = FLOPPY_PHASE_CMD) (hlen : s.m_commandlen = 0) :
    s.submit [op, b1, C, H, R, N, EOT, GPL, DTL] =
      (pushAll s [op, b1, C, H, R, N, EOT, GPL, DTL]).StartCommand FLOPPY_COMMAND_READ_DATA := by
  have h := (readWrite_classify op hop).1 hrd
  rw [(submit_transfer_nine s op b1 C H R N EOT GPL DTL hop h.1 hphase hlen).2.2.2, h.2]

/-- A complete Write Data command submitted from Command phase with an empty
command buffer is one `StartCommand` of kind Write Data on the filled buffer. -/
theorem submit_write_data (s : CFloppyController) (op b1 C H R N EOT GPL DTL : Nat)
    (hop : op < 256) (hwr : isWriteOpcode op)
    (hphase : s.m_phase = FLOPPY_PHASE_CMD) (hlen : s.m_commandlen = 0) :
    s.submit [op, b1, C, H, R, N, EOT, GPL, DTL] =
      (pushAll s [op, b1, C, H, R, N, EOT, GPL, DTL]).StartCommand FLOPPY_COMMAND_WRITE_DATA := by
  have h := (readWrite_classify op hop).2 hwr
  rw [(submit_transfer_nine s op b1 C H R N EOT GPL DTL hop h.1 hphase hlen).2.2.2, h.2]

/-- Read Data on an attached drive, from submission to result. -/
theorem read_data_attached (s : CFloppyController) (op b1 C H R N EOT GPL DTL : Nat)
    (hop : op < 256) (hrd : isReadOpcode op)
    (hphase : s.m_phase = FLOPPY_PHASE_CMD) (hlen : s.m_commandlen = 0)
    (hatt : s.IsAttached (b1 &&& 3) = true) (hstop : false ∈ s.m_pBoard.fillAnswers) :
    ∃ t, s.submit [op, b1, C, H, R, N, EOT, GPL, DTL] = some t ∧
      t.m_phase = FLOPPY_PHASE_RESULT ∧ t.m_int = true ∧
      t.m_resultlen = 7 ∧ t.m_resultpos = 0 ∧ t.m_commandlen = 0 ∧
      t.m_result 0 = 0x20 ||| (b1 &&& 3) ∧
      t.m_result 1 = 0 ∧ t.m_result 2 = 0 ∧ t.m_result 3 = C ∧
      t.m_result 4 = H ∧ t.m_result 5 = R ∧ t.m_result 6 = N ∧
      t.m_pBoard =
        { fillAnswers := s.m_pBoard.fillAnswers.drop (firstStop s.m_pBoard.fillAnswers + 1),
          fillCalls := s.m_pBoard.fillCalls ++
            (List.range (firstStop s.m_pBoard.fillAnswers + 1)).map (fun j =>
              { slot := 0,
                offset := sectorOffset C H (sectorFrom ((R + 255) % 256) j) }) } ∧
      t.m_drive = b1 &&& 3 ∧ t.m_drivedata = s.m_drivedata := by
  rw [submit_read_data s op b1 C H R N EOT GPL DTL hop hrd hphase hlen]
  have hf9 := pushAll_frame s [op, b1, C, H, R, N, EOT, GPL, DTL]
  obtain ⟨_, h1, h2, h3, h4, h5⟩ := pushAll_nine s op b1 C H R N EOT GPL DTL hlen
  have hatt2 : (pushAll s [op, b1, C, H, R, N, EOT, GPL, DTL]).IsAttached
      ((pushAll s [op, b1, C, H, R, N, EOT, GPL, DTL]).m_command 1 &&& 3) = true := by
    rw [h1]; simp only [IsAttached, hf9.2.2.2.2.2.2.1]; exact hatt
  have hstop2 : false ∈ (pushAll s [op, b1, C, H, R, N, EOT, GPL, DTL]).m_pBoard.fillAnswers := by
    rw [hf9.2.2.2.2.2.1]; exact hstop
  obtain ⟨u, hu, r⟩ := StartCommand_read_attached _ hatt2 hstop2
  rw [h1, h2, h3, h4, h5, hf9.2.2.2.2.2.1, hf9.2.2.2.2.2.2.1] at r
  exact ⟨u, hu, r⟩

/-- Read Data on a drive that is not attached, from submission to result. -/
theorem read_data_unattached (s : CFloppyController) (op b1 C H R N EOT GPL DTL : Nat)
    (hop : op < 256) (hrd : isReadOpcode op)
    (hphase : s.m_phase = FLOPPY_PHASE_CMD) (hlen : s.m_commandlen = 0)
    (hatt : s.IsAttached (b1 &&& 3) = false) :
    ∃ t, s.submit [op, b1, C, H, R, N, EOT, GPL, DTL] = some t ∧
      t.m_phase = FLOPPY_PHASE_RESULT ∧ t.m_int = true ∧
      t.m_resultlen = 7 ∧ t.m_resultpos = 0 ∧ t.m_commandlen = 0 ∧
      t.m_result 0 = 0xC8 ||| (b1 &&& 3) ∧
      t.m_result 1 = 0 ∧ t.m_result 2 = 0 ∧ t.m_result 3 = C ∧
      t.m_result 4 = H ∧ t.m_result 5 = R ∧ t.m_result 6 = N ∧
      t.m_pBoard = s.m_pBoard ∧ t.m_drive = b1 &&& 3 ∧ t.m_drivedata = s.m_drivedata := by
  rw [submit_read_data s op b1 C H R N EOT GPL DTL hop hrd hphase hlen]
  have hf9 := pushAll_frame s [op, b1, C, H, R, N, EOT, GPL, DTL]
  obtain ⟨_, h1, h2, h3, h4, h5⟩ := pushAll_nine s op b1 C H R N EOT GPL DTL hlen
  have hatt2 : (pushAll s [op, b1, C, H, R, N, EOT, GPL, DTL]).IsAttached
      ((pushAll s [op, b1, C, H, R, N, EOT, GPL, DTL]).m_command 1 &&& 3) = false := by
    rw [h1]; simp only [IsAttached, hf9.2.2.2.2.2.2.1]; exact hatt
  obtain ⟨u, hu, r⟩ := StartCommand_read_unattached _ hatt2
  rw [h1, h2, h3, h4, h5, hf9.2.2.2.2.2.1, hf9.2.2.2.2.2.2.1] at r
  exact ⟨u, hu, r⟩

/-- Write Data, from submission to result. -/
theorem write_data_result (s : CFloppyController) (op b1 C H R N EOT GPL DTL : Nat)
    (hop : op < 256) (hwr : isWriteOpcode op)
    (hphase : s.m_phase = FLOPPY_PHASE_CMD) (hlen : s.m_commandlen = 0) :
    ∃ t, s.submit [op, b1, C, H, R, N, EOT, GPL, DTL] = some t ∧
      t.m_phase = FLOPPY_PHASE_RESULT ∧ t.m_int = true ∧
      t.m_resultlen = 7 ∧ t.m_resultpos = 0 ∧ t.m_commandlen = 0 ∧
      t.m_result 0 = 0x20 ||| (b1 &&& 3) ∧
      t.m_result 1 = 0 ∧ t.m_result 2 = 0 ∧ t.m_result 3 = C ∧
      t.m_result 4 = H ∧ t.m_result 5 = R ∧ t.m_result 6 = N ∧
      t.m_pBoard = s.m_pBoard ∧ t.m_drive = b1 &&& 3 ∧ t.m_drivedata = s.m_drivedata := by
  rw [submit_write_data s op b1 C H R N EOT GPL DTL hop hwr hphase hlen]
  have hf9 := pushAll_frame s [op, b1, C, H, R, N, EOT, GPL, DTL]
  obtain ⟨_, h1, h2, h3, h4, h5⟩ := pushAll_nine s op b1 C H R N EOT GPL DTL hlen
  obtain ⟨u, hu, r⟩ := StartCommand_write (pushAll s [op, b1, C, H, R, N, EOT, GPL, DTL])
  rw [h1, h2, h3, h4, h5, hf9.2.2.2.2.2.1, hf9.2.2.2.2.2.2.1] at r
  exact ⟨u, hu, r⟩

/-! ## Claims -/

/-- C2: a nine-byte transfer opcode submitted to a controller in Command phase
with an empty command buffer. After each of the first eight `FifoWrite` calls
the classification is Incomplete, the phase is Command, the result buffer with
its length and cursor is as before and the board has received no call. At the
ninth byte the classification is a command kind (neither Invalid nor
Incomplete) and the write is one `StartCommand` of that kind, which leaves the
command length 0 and returns unless it is a Read Data on an attached drive
whose callback never answers stop. No `FifoRead` changes the board, the result
bytes or the result length. -/
theorem C2_transfer_nine_bytes (s : CFloppyController) (op b1 b2 b3 b4 b5 b6 b7 b8 : Nat)
    (hop : op < 256) (ht : isTransferOpcode op)
    (hphase : s.m_phase = FLOPPY_PHASE_CMD) (hlen : s.m_commandlen = 0) :
    (∀ k, 1 ≤ k → k ≤ 8 →
      ∃ t, s.submit ([op, b1, b2, b3, b4, b5, b6, b7, b8].take k) = some t ∧
        t.CheckCommand = FLOPPY_COMMAND_INCOMPLETE ∧ t.m_phase = FLOPPY_PHASE_CMD ∧
        t.m_commandlen = k ∧ t.m_result = s.m_result ∧ t.m_resultlen = s.m_resultlen ∧
        t.m_resultpos = s.m_resultpos ∧ t.m_pBoard = s.m_pBoard) ∧
    (∃ t8, s.submit [op, b1, b2, b3, b4, b5, b6, b7] = some t8 ∧
      (t8.pushCommandByte b8).CheckCommand ≠ FLOPPY_COMMAND_INVALID ∧
      (t8.pushCommandByte b8).CheckCommand ≠ FLOPPY_COMMAND_INCOMPLETE ∧
      t8.FifoWrite b8 =
        (t8.pushCommandByte b8).StartCommand (t8.pushCommandByte b8).CheckCommand ∧
      s.submit [op, b1, b2, b3, b4, b5, b6, b7, b8] = t8.FifoWrite b8 ∧
      (∀ u, t8.FifoWrite b8 = some u → u.m_commandlen = 0) ∧
      ((t8.pushCommandByte b8).CheckCommand ≠ FLOPPY_COMMAND_READ_DATA ∨
        s.IsAttached (b1 &&& 3) = false ∨ false ∈ s.m_pBoard.fillAnswers →
        ∃ u, t8.FifoWrite b8 = some u)) ∧
    (∀ u : CFloppyController, u.FifoRead.2.m_pBoard = u.m_pBoard ∧
      u.FifoRead.2.m_result = u.m_result ∧ u.FifoRead.2.m_resultlen = u.m_resultlen) := by
  have hpre : ∀ bs : List Nat, bs.length ≤ 8 → (∀ b ∈ bs.head?, b = op) →
      s.submit bs = some (pushAll s bs) ∧
      ((pushAll s bs).m_commandlen ≠ 0 → (pushAll s bs).m_command 0 = op ∧
        (pushAll s bs).CheckCommand = FLOPPY_COMMAND_INCOMPLETE ∨ bs = []) := by
    intro bs hl hh
    exact submit_transfer_incomplete op hop ht bs s hphase (fun h => absurd hlen h)
      (fun _ => hh) (by omega)
  refine ⟨?_, ?_, fun u => ⟨(FifoRead_frame u).1, (FifoRead_frame u).2.1,
    (FifoRead_frame u).2.2.1⟩⟩
  · intro k hk1 hk8
    have hl : ([op, b1, b2, b3, b4, b5, b6, b7, b8].take k).length = k := by
      simp only [List.length_take, List.length_cons, List.length_nil]; omega
    have hh : ∀ b ∈ ([op, b1, b2, b3, b4, b5, b6, b7, b8].take k).head?, b = op := by
      obtain ⟨j, rfl⟩ : ∃ j, k = j + 1 := ⟨k - 1, by omega⟩
      intro b hb
      simpa using hb.symm
    obtain ⟨h1, h2⟩ := hpre _ (by omega) hh
    have hf := pushAll_frame s ([op, b1, b2, b3, b4, b5, b6, b7, b8].take k)
    have hcl : (pushAll s ([op, b1, b2, b3, b4, b5, b6, b7, b8].take k)).m_commandlen = k := by
      rw [hf.2.1, hl, hlen]; omega
    refine ⟨_, h1, ?_, by rw [hf.1, hphase], hcl, hf.2.2.1, hf.2.2.2.1, hf.2.2.2.2.1,
      hf.2.2.2.2.2.1⟩
    rcases h2 (by omega) with h | h
    · exact h.2
    · rw [h] at hl; simp at hl; omega
  · obtain ⟨h1, hchk, hfw, hsub⟩ := submit_transfer_nine s op b1 b2 b3 b4 b5 b6 b7 b8 hop ht
      hphase hlen
    have hcls := (transfer_classify op hop 9 (by omega) (by omega) ht).2 rfl
    have hsn := pushAll_snoc s [op, b1, b2, b3, b4, b5, b6, b7] b8
    simp only [List.cons_append, List.nil_append] at hsn
    have hf9 := pushAll_frame s [op, b1, b2, b3, b4, b5, b6, b7, b8]
    have h9 := pushAll_nine s op b1 b2 b3 b4 b5 b6 b7 b8 hlen
    refine ⟨_, h1, ?_, ?_, ?_, ?_, ?_, ?_⟩
    · rw [hsn, hchk]; exact hcls.1
    · rw [hsn, hchk]; exact hcls.2
    · rw [hsn, hchk]; exact hfw
    · rw [hsub, hfw]
    · intro u hu
      rw [hfw] at hu
      exact StartCommand_commandlen _ _ _ hu
    · intro hret
      rw [hfw]
      apply StartCommand_returns
      rw [h9.2.1, hf9.2.2.2.2.2.1]
      rw [hsn, hchk] at hret
      simp only [IsAttached, hf9.2.2.2.2.2.2.1]
      exact hret

theorem C2_transfer_nine_bytes_witness :
    isTransferOpcode 0x06 ∧
    ∃ t8, demoController.submit [0x06, 0, 2, 0, 3, 2, 0x0A, 0x1B] = some t8 ∧
      (t8.pushCommandByte 0xFF).CheckCommand ≠ FLOPPY_COMMAND_INVALID ∧
      (t8.pushCommandByte 0xFF).CheckCommand ≠ FLOPPY_COMMAND_INCOMPLETE ∧
      t8.FifoWrite 0xFF =
        (t8.pushCommandByte 0xFF).StartCommand (t8.pushCommandByte 0xFF).CheckCommand ∧
      demoController.submit [0x06, 0, 2, 0, 3, 2, 0x0A, 0x1B, 0xFF] = t8.FifoWrite 0xFF ∧
      (∀ u, t8.FifoWrite 0xFF = some u → u.m_commandlen = 0) ∧
      ((t8.pushCommandByte 0xFF).CheckCommand ≠ FLOPPY_COMMAND_READ_DATA ∨
        demoController.IsAttached (0 &&& 3) = false ∨
        false ∈ demoController.m_pBoard.fillAnswers →
        ∃ u, t8.FifoWrite 0xFF = some u) :=
  ⟨by decide, (C2_transfer_nine_bytes demoController 0x06 0 2 0 3 2 0x0A 0x1B 0xFF (by decide)
    (by decide) rfl rfl).2.1⟩

/-- C3: a byte that matches no opcode pattern, written to a controller in Command
phase with an empty command buffer, is classified Invalid; the write leaves
phase Result, the staged result exactly `[0x80]` (length 1, cursor 0) and the
command buffer empty. The next `FifoRead` returns `0x80` and leaves phase
Command, and every further `FifoRead` returns `0xFF` without changing the
state. -/
theorem C3_invalid_opcode (s : CFloppyController) (b : Nat) (hb : b < 256)
    (hno : matchesNoPattern b)
    (hphase : s.m_phase = FLOPPY_PHASE_CMD) (hlen : s.m_commandlen = 0) :
    (s.pushCommandByte b).CheckCommand = FLOPPY_COMMAND_INVALID ∧
    ∃ t, s.FifoWrite b = some t ∧ t.m_phase = FLOPPY_PHASE_RESULT ∧
      t.resultBytes = [0x80] ∧ t.m_resultlen = 1 ∧ t.m_resultpos = 0 ∧ t.m_commandlen = 0 ∧
      t.FifoRead.1 = 0x80 ∧ t.FifoRead.2.m_phase = FLOPPY_PHASE_CMD ∧
      ∀ n, readMany n t.FifoRead.2 = (List.replicate n 0xFF, t.FifoRead.2) := by
  have hinv : (s.pushCommandByte b).CheckCommand = FLOPPY_COMMAND_INVALID := by
    rw [CheckCommand_probe, pushCommandByte_first s b hlen]
    show (probe b (s.m_commandlen + 1)).CheckCommand = _
    rw [hlen]
    exact (probe_table b hb 1 (by omega) (by omega)).1.2 hno
  refine ⟨hinv, _, FifoWrite_invalid s b hphase hinv, rfl, ?_, rfl, rfl, rfl, ?_, ?_, ?_⟩
  · simp [resultBytes, setAt, List.range_succ]
  · simp [FifoRead, setAt]
  · simp [FifoRead]
  · intro n
    apply readMany_cmd
    simp [FifoRead]

theorem C3_invalid_opcode_witness :
    matchesNoPattern 0x23 ∧
    (demoController.pushCommandByte 0x23).CheckCommand = FLOPPY_COMMAND_INVALID ∧
    ∃ t, demoController.FifoWrite 0x23 = some t ∧ t.m_phase = FLOPPY_PHASE_RESULT ∧
      t.resultBytes = [0x80] ∧ t.m_resultlen = 1 ∧ t.m_resultpos = 0 ∧ t.m_commandlen = 0 ∧
      t.FifoRead.1 = 0x80 ∧ t.FifoRead.2.m_phase = FLOPPY_PHASE_CMD ∧
      ∀ n, readMany n t.FifoRead.2 = (List.replicate n 0xFF, t.FifoRead.2) :=
  ⟨by decide, C3_invalid_opcode demoController 0x23 (by decide) (by decide) rfl rfl⟩

/-- C4 (as stated, refuted): with the first byte `0x0F` of a Seek command already
in the command buffer, a `FifoWrite(0x08)` is classified Incomplete, not Sense
Interrupt Status: the phase stays Command, no result is staged and the byte
becomes the second byte of the pending command. -/
theorem C4_counterexample :
    (demoController.FifoWrite 0x0F).map (fun t => t.m_commandlen) = some 1 ∧
    (demoController.FifoWrite 0x0F).map (fun t => t.m_command 0) = some (seekPending.m_command 0) ∧
    seekPending.m_phase = FLOPPY_PHASE_CMD ∧ seekPending.m_commandlen = 1 ∧
    seekPending.CheckCommand = FLOPPY_COMMAND_INCOMPLETE ∧
    (seekPending.pushCommandByte 0x08).CheckCommand = FLOPPY_COMMAND_INCOMPLETE ∧
    (seekPending.FifoWrite 0x08).map (fun t => (t.m_phase, t.m_resultlen, t.m_commandlen))
      = some (FLOPPY_PHASE_CMD, 0, 2) ∧
    (seekPending.FifoWrite 0x08).map (fun t => t.resultBytes) ≠ some [0x20, 0x00] := by
  decide

/-- C4 (amended): in Command phase with an empty command buffer, `FifoWrite(0x08)`
is classified Sense Interrupt Status after that one byte and ends with phase
Result, the staged result `[0x20, 0x00]` (length 2, cursor 0), the interrupt
flag cleared and `m_drive` unchanged. -/
theorem C4_sense_interrupt_status (s : CFloppyController)
    (hphase : s.m_phase = FLOPPY_PHASE_CMD) (hlen : s.m_commandlen = 0) :
    (s.pushCommandByte 0x08).CheckCommand = FLOPPY_COMMAND_SENSE_INTERRUPT_STATUS ∧
    ∃ t, s.FifoWrite 0x08 = some t ∧ t.m_phase = FLOPPY_PHASE_RESULT ∧
      t.resultBytes = [0x20, 0x00] ∧ t.m_resultlen = 2 ∧ t.m_resultpos = 0 ∧
      t.m_int = false ∧ t.m_drive = s.m_drive ∧ t.m_pDrive = s.m_pDrive ∧
      t.m_commandlen = 0 := by
  have hcls : (s.pushCommandByte 0x08).CheckCommand = FLOPPY_COMMAND_SENSE_INTERRUPT_STATUS := by
    rw [CheckCommand_probe, pushCommandByte_first s 0x08 hlen]
    show (probe 0x08 (s.m_commandlen + 1)).CheckCommand = _
    rw [hlen]
    rfl
  refine ⟨hcls, ?_⟩
  have hfw := FifoWrite_valid s 0x08 hphase (by rw [hcls]; decide) (by rw [hcls]; decide)
  rw [hcls] at hfw
  rw [hfw]
  simp [StartCommand, ExecuteCommand, resultBytes, setAt, List.range_succ, pushCommandByte]

theorem C4_sense_interrupt_status_witness :
    (demoController.pushCommandByte 0x08).CheckCommand = FLOPPY_COMMAND_SENSE_INTERRUPT_STATUS ∧
    ∃ t, demoController.FifoWrite 0x08 = some t ∧ t.m_phase = FLOPPY_PHASE_RESULT ∧
      t.resultBytes = [0x20, 0x00] ∧ t.m_resultlen = 2 ∧ t.m_resultpos = 0 ∧
      t.m_int = false ∧ t.m_drive = demoController.m_drive ∧
      t.m_pDrive = demoController.m_pDrive ∧ t.m_commandlen = 0 :=
  C4_sense_interrupt_status demoController rfl rfl

/-- C5: a Read Data command `[op, b1, C, H, R, N, EOT, GPL, DTL]` on an attached
selected drive, with callback answers that contain a stop. With `k` the index of
the first stop, the command returns having invoked the callback exactly `k + 1`
times (one call per answer consumed); the `j`-th call receives byte offset
`(C * 2 + H) * 5120 + s_j * 512` with `s_0 = R - 1` as an 8-bit value and
`s_(j+1) = (s_j + 1) mod 10`; afterwards the phase is Result and the interrupt
flag is set. -/
theorem C5_read_data_transfer (s : CFloppyController) (op b1 C H R N EOT GPL DTL : Nat)
    (hop : op < 256) (hrd : isReadOpcode op)
    (hphase : s.m_phase = FLOPPY_PHASE_CMD) (hlen : s.m_commandlen = 0)
    (hatt : s.IsAttached (b1 &&& 3) = true) (hstop : false ∈ s.m_pBoard.fillAnswers) :
    ∃ t L, s.submit [op, b1, C, H, R, N, EOT, GPL, DTL] = some t ∧
      t.m_pBoard.fillCalls = s.m_pBoard.fillCalls ++ L ∧
      L.length = firstStop s.m_pBoard.fillAnswers + 1 ∧
      (∀ j, j ≤ firstStop s.m_pBoard.fillAnswers →
        (L[j]?).map FillCall.offset = some ((C * 2 + H) * 5120 + sectorIndex R j * 512)) ∧
      t.m_pBoard.fillAnswers =
        s.m_pBoard.fillAnswers.drop (firstStop s.m_pBoard.fillAnswers + 1) ∧
      s.m_pBoard.fillAnswers[firstStop s.m_pBoard.fillAnswers]? = some false ∧
      (∀ j < firstStop s.m_pBoard.fillAnswers, s.m_pBoard.fillAnswers[j]? = some true) ∧
      t.m_phase = FLOPPY_PHASE_RESULT ∧ t.m_int = true := by
  obtain ⟨t, ht, hph, hint, _, _, _, _, _, _, _, _, _, _, hb, _⟩ :=
    read_data_attached s op b1 C H R N EOT GPL DTL hop hrd hphase hlen hatt hstop
  obtain ⟨hf1, hf2⟩ := firstStop_spec _ hstop
  refine ⟨t, _, ht, by rw [hb], by simp, ?_, by rw [hb], hf1, hf2, hph, hint⟩
  intro j hj
  rw [List.getElem?_map, List.getElem?_range (by omega)]
  simp [sectorOffset, sectorIndex_eq]

theorem C5_read_data_transfer_witness :
    ∃ t L, (demoAttached 0).submit [0x06, 0, 2, 0, 3, 2, 0x0A, 0x1B, 0xFF] = some t ∧
      t.m_pBoard.fillCalls = (demoAttached 0).m_pBoard.fillCalls ++ L ∧
      L.length = firstStop (demoAttached 0).m_pBoard.fillAnswers + 1 ∧
      (∀ j, j ≤ firstStop (demoAttached 0).m_pBoard.fillAnswers →
        (L[j]?).map FillCall.offset = some ((2 * 2 + 0) * 5120 + sectorIndex 3 j * 512)) ∧
      t.m_pBoard.fillAnswers =
        (demoAttached 0).m_pBoard.fillAnswers.drop
          (firstStop (demoAttached 0).m_pBoard.fillAnswers + 1) ∧
      (demoAttached 0).m_pBoard.fillAnswers[firstStop (demoAttached 0).m_pBoard.fillAnswers]?
        = some false ∧
      (∀ j < firstStop (demoAttached 0).m_pBoard.fillAnswers,
        (demoAttached 0).m_pBoard.fillAnswers[j]? = some true) ∧
      t.m_phase = FLOPPY_PHASE_RESULT ∧ t.m_int = true :=
  C5_read_data_transfer (demoAttached 0) 0x06 0 2 0 3 2 0x0A 0x1B 0xFF (by decide) (by decide)
    rfl rfl (by decide) (by decide)

/-- C6 (the code at the failing input): Read Data for drive 1, cylinder 0, head 0,
sector 1, on a controller whose drive 1 is attached and whose drive 0 is not.
The command selects drive 1, yet both callback invocations receive
`m_drivedata[0].data` plus the offset, and drive 0 has no backing buffer. -/
theorem C6_wrong_drive_buffer :
    (demoAttached 1).IsAttached 1 = true ∧ (demoAttached 1).IsAttached 0 = false ∧
    ((demoAttached 1).m_drivedata 0).data = none ∧
    ((demoAttached 1).submit [0x06, 0x01, 0, 0, 1, 2, 0x0A, 0x1B, 0xFF]).map
      (fun t => (t.m_drive, t.m_pBoard.fillCalls))
      = some (1, [{ slot := 0, offset := 0 }, { slot := 0, offset := 512 }]) := by
  decide

theorem or_c8_low_bits (b1 : Nat) : (0xC8 ||| (b1 &&& 3)) &&& 3 = b1 &&& 3 := by
  have h : b1 &&& 3 ≤ 3 := Nat.and_le_right
  generalize b1 &&& 3 = d at h
  interval_cases d <;> rfl

/-- C7: a Read Data command whose selected drive `d = b1 & 3` is not attached
returns without invoking the callback (the board, answers and call log, is as
before); the result has length 7 with `status0 = 0xC8 | d`, whose low two bits
are `d`; the phase is Result and the interrupt flag is set. -/
theorem C7_read_data_not_ready (s : CFloppyController) (op b1 C H R N EOT GPL DTL : Nat)
    (hop : op < 256) (hrd : isReadOpcode op)
    (hphase : s.m_phase = FLOPPY_PHASE_CMD) (hlen : s.m_commandlen = 0)
    (hnone : (s.m_drivedata (b1 &&& 3)).fpFile = none) :
    ∃ t, s.submit [op, b1, C, H, R, N, EOT, GPL, DTL] = some t ∧
      t.m_pBoard = s.m_pBoard ∧
      t.m_resultlen = 7 ∧ t.m_result 0 = 0xC8 ||| (b1 &&& 3) ∧
      t.m_result 0 &&& 3 = b1 &&& 3 ∧
      t.m_phase = FLOPPY_PHASE_RESULT ∧ t.m_int = true := by
  have hatt : s.IsAttached (b1 &&& 3) = false := by
    simp [IsAttached, hnone]
  obtain ⟨t, ht, hph, hint, hrl, _, _, h0, _, _, _, _, _, _, hb, _⟩ :=
    read_data_unattached s op b1 C H R N EOT GPL DTL hop hrd hphase hlen hatt
  exact ⟨t, ht, hb, hrl, h0, by rw [h0]; exact or_c8_low_bits b1, hph, hint⟩

theorem C7_read_data_not_ready_witness :
    ∃ t, demoController.submit [0x06, 0x02, 2, 0, 3, 2, 0x0A, 0x1B, 0xFF] = some t ∧
      t.m_pBoard = demoController.m_pBoard ∧
      t.m_resultlen = 7 ∧ t.m_result 0 = 0xC8 ||| (0x02 &&& 3) ∧
      t.m_result 0 &&& 3 = 0x02 &&& 3 ∧
      t.m_phase = FLOPPY_PHASE_RESULT ∧ t.m_int = true :=
  C7_read_data_not_ready demoController 0x06 0x02 2 0 3 2 0x0A 0x1B 0xFF (by decide) (by decide)
    rfl rfl rfl

/-- C8 (as stated, refuted): on a controller whose drive 0 is attached and whose
callback answers continue, stop, Read Data `0x06` with parameter bytes
`0, 2, 0, 3, 2, 0x0A, 0x1B, 0xFF` invokes the callback twice, while Write Data
`0x05` with the same parameter bytes from the same state never invokes it. -/
theorem C8_counterexample :
    ((demoAttached 0).submit [0x06, 0, 2, 0, 3, 2, 0x0A, 0x1B, 0xFF]).map
      (fun t => t.m_pBoard.fillCalls)
      = some [{ slot := 0, offset := 21504 }, { slot := 0, offset := 22016 }] ∧
    ((demoAttached 0).submit [0x05, 0, 2, 0, 3, 2, 0x0A, 0x1B, 0xFF]).map
      (fun t => t.m_pBoard.fillCalls) = some [] := by
  decide

/-- C8 (amended): Write Data performs no transfer. From every state in Command
phase with an empty command buffer, Write Data (low five bits `0x05` or `0x09`)
with parameter bytes `b1, C, H, R, N, EOT, GPL, DTL` returns without invoking
the callback and stages a result of length 7 with cursor 0 and bytes 1 to 6
equal to `0, 0, C, H, R, N`, phase Result, interrupt flag set; whenever Read
Data (low five bits `0x06` or `0x0C`) with the same parameter bytes returns from
the same state, it leaves the same result length, cursor, result bytes 1 to 6,
phase and interrupt flag, and on an attached drive the same `status0`, which is
`0x20 | (b1 & 3)`. -/
theorem C8_write_data_no_transfer (s : CFloppyController)
    (wop rop b1 C H R N EOT GPL DTL : Nat)
    (hwop : wop < 256) (hwr : isWriteOpcode wop) (hrop : rop < 256) (hrd : isReadOpcode rop)
    (hphase : s.m_phase = FLOPPY_PHASE_CMD) (hlen : s.m_commandlen = 0) :
    ∃ w, s.submit [wop, b1, C, H, R, N, EOT, GPL, DTL] = some w ∧
      w.m_pBoard = s.m_pBoard ∧
      w.m_resultlen = 7 ∧ w.m_resultpos = 0 ∧
      w.m_result 1 = 0 ∧ w.m_result 2 = 0 ∧ w.m_result 3 = C ∧ w.m_result 4 = H ∧
      w.m_result 5 = R ∧ w.m_result 6 = N ∧
      w.m_phase = FLOPPY_PHASE_RESULT ∧ w.m_int = true ∧
      (s.IsAttached (b1 &&& 3) = true → w.m_result 0 = 0x20 ||| (b1 &&& 3)) ∧
      ∀ r, s.submit [rop, b1, C, H, R, N, EOT, GPL, DTL] = some r →
        r.m_resultlen = w.m_resultlen ∧ r.m_resultpos = w.m_resultpos ∧
        (∀ i, 1 ≤ i → i ≤ 6 → r.m_result i = w.m_result i) ∧
        r.m_phase = w.m_phase ∧ r.m_int = w.m_int ∧
        (s.IsAttached (b1 &&& 3) = true → r.m_result 0 = w.m_result 0) := by
  obtain ⟨w, hw, wph, wint, wrl, wrp, _, w0, w1, w2, w3, w4, w5, w6, wb, _⟩ :=
    write_data_result s wop b1 C H R N EOT GPL DTL hwop hwr hphase hlen
  refine ⟨w, hw, wb, wrl, wrp, w1, w2, w3, w4, w5, w6, wph, wint, fun _ => w0, ?_⟩
  intro r hr
  by_cases hatt : s.IsAttached (b1 &&& 3) = true
  · by_cases hstop : false ∈ s.m_pBoard.fillAnswers
    · obtain ⟨t, ht, tph, tint, trl, trp, _, t0, t1, t2, t3, t4, t5, t6, _⟩ :=
        read_data_attached s rop b1 C H R N EOT GPL DTL hrop hrd hphase hlen hatt hstop
      rw [ht] at hr
      cases hr
      refine ⟨by rw [trl, wrl], by rw [trp, wrp], ?_, by rw [tph, wph], by rw [tint, wint],
        fun _ => by rw [t0, w0]⟩
      intro i hi1 hi6
      interval_cases i
      · rw [t1, w1]
      · rw [t2, w2]
      · rw [t3, w3]
      · rw [t4, w4]
      · rw [t5, w5]
      · rw [t6, w6]
    · exfalso
      rw [submit_read_data s rop b1 C H R N EOT GPL DTL hrop hrd hphase hlen] at hr
      have hf9 := pushAll_frame s [rop, b1, C, H, R, N, EOT, GPL, DTL]
      have h1 := (pushAll_nine s rop b1 C H R N EOT GPL DTL hlen).2.1
      have hatt2 : (s.m_drivedata (b1 &&& 3)).fpFile.isSome = true := hatt
      have hl := readDataLoop_none
        ((pushAll s [rop, b1, C, H, R, N, EOT, GPL, DTL]).m_command 2)
        ((pushAll s [rop, b1, C, H, R, N, EOT, GPL, DTL]).m_command 3)
        s.m_pBoard.fillAnswers
        (((pushAll s [rop, b1, C, H, R, N, EOT, GPL, DTL]).m_command 4 + 255) % 256)
        s.m_pBoard.fillCalls hstop
      simp [StartCommand, ExecuteCommand, IsAttached, h1, hf9.2.2.2.2.2.2.1,
        hf9.2.2.2.2.2.1, hatt2, hl] at hr
  · obtain ⟨t, ht, tph, tint, trl, trp, _, _, t1, t2, t3, t4, t5, t6, _⟩ :=
      read_data_unattached s rop b1 C H R N EOT GPL DTL hrop hrd hphase hlen
        (by simpa using hatt)
    rw [ht] at hr
    cases hr
    refine ⟨by rw [trl, wrl], by rw [trp, wrp], ?_, by rw [tph, wph], by rw [tint, wint],
      fun h => absurd h hatt⟩
    intro i hi1 hi6
    interval_cases i
    · rw [t1, w1]
    · rw [t2, w2]
    · rw [t3, w3]
    · rw [t4, w4]
    · rw [t5, w5]
    · rw [t6, w6]

theorem C8_write_data_no_transfer_witness :
    ∃ w, (demoAttached 0).submit [0x05, 0, 2, 0, 3, 2, 0x0A, 0x1B, 0xFF] = some w ∧
      w.m_pBoard = (demoAttached 0).m_pBoard ∧
      w.m_resultlen = 7 ∧ w.m_resultpos = 0 ∧
      w.m_result 1 = 0 ∧ w.m_result 2 = 0 ∧ w.m_result 3 = 2 ∧ w.m_result 4 = 0 ∧
      w.m_result 5 = 3 ∧ w.m_result 6 = 2 ∧
      w.m_phase = FLOPPY_PHASE_RESULT ∧ w.m_int = true ∧
      ((demoAttached 0).IsAttached (0 &&& 3) = true → w.m_result 0 = 0x20 ||| (0 &&& 3)) ∧
      ∀ r, (demoAttached 0).submit [0x06, 0, 2, 0, 3, 2, 0x0A, 0x1B, 0xFF] = some r →
        r.m_resultlen = w.m_resultlen ∧ r.m_resultpos = w.m_resultpos ∧
        (∀ i, 1 ≤ i → i ≤ 6 → r.m_result i = w.m_result i) ∧
        r.m_phase = w.m_phase ∧ r.m_int = w.m_int ∧
        ((demoAttached 0).IsAttached (0 &&& 3) = true → r.m_result 0 = w.m_result 0) :=
  C8_write_data_no_transfer (demoAttached 0) 0x05 0x06 0 2 0 3 2 0x0A 0x1B 0xFF
    (by decide) (by decide) (by decide) (by decide) rfl rfl

/-- C9: every Read Data or Write Data command `[op, b1, C, H, R, N, EOT, GPL, DTL]`
that completes (a Read Data on an attached drive needs a stop among the
callback answers) stages a result of length 7 with cursor 0, `result[1] =
result[2] = 0` and `result[3..6]` equal to `C, H, R, N`, whether or not the
drive is attached; when the selected drive is attached, `result[0] = 0x20 |
(b1 & 3)`. -/
theorem C9_result_echo (s : CFloppyController) (op b1 C H R N EOT GPL DTL : Nat)
    (hop : op < 256) (hrw : isReadOpcode op ∨ isWriteOpcode op)
    (hphase : s.m_phase = FLOPPY_PHASE_CMD) (hlen : s.m_commandlen = 0)
    (hdone : isReadOpcode op → s.IsAttached (b1 &&& 3) = true →
      false ∈ s.m_pBoard.fillAnswers) :
    ∃ t, s.submit [op, b1, C, H, R, N, EOT, GPL, DTL] = some t ∧
      t.m_resultlen = 7 ∧ t.m_resultpos = 0 ∧
      t.m_result 1 = 0 ∧ t.m_result 2 = 0 ∧
      t.m_result 3 = C ∧ t.m_result 4 = H ∧ t.m_result 5 = R ∧ t.m_result 6 = N ∧
      t.resultBytes = [t.m_result 0, 0, 0, C, H, R, N] ∧
      (s.IsAttached (b1 &&& 3) = true → t.m_result 0 = 0x20 ||| (b1 &&& 3)) := by
  have key : ∃ t, s.submit [op, b1, C, H, R, N, EOT, GPL, DTL] = some t ∧
      t.m_resultlen = 7 ∧ t.m_resultpos = 0 ∧
      t.m_result 1 = 0 ∧ t.m_result 2 = 0 ∧
      t.m_result 3 = C ∧ t.m_result 4 = H ∧ t.m_result 5 = R ∧ t.m_result 6 = N ∧
      (s.IsAttached (b1 &&& 3) = true → t.m_result 0 = 0x20 ||| (b1 &&& 3)) := by
    rcases hrw with hrd | hwr
    · by_cases hatt : s.IsAttached (b1 &&& 3) = true
      · obtain ⟨t, ht, _, _, trl, trp, _, t0, t1, t2, t3, t4, t5, t6, _⟩ :=
          read_data_attached s op b1 C H R N EOT GPL DTL hop hrd hphase hlen hatt
            (hdone hrd hatt)
        exact ⟨t, ht, trl, trp, t1, t2, t3, t4, t5, t6, fun _ => t0⟩
      · obtain ⟨t, ht, _, _, trl, trp, _, _, t1, t2, t3, t4, t5, t6, _⟩ :=
          read_data_unattached s op b1 C H R N EOT GPL DTL hop hrd hphase hlen
            (by simpa using hatt)
        exact ⟨t, ht, trl, trp, t1, t2, t3, t4, t5, t6, fun h => absurd h hatt⟩
    · obtain ⟨t, ht, _, _, trl, trp, _, t0, t1, t2, t3, t4, t5, t6, _⟩ :=
        write_data_result s op b1 C H R N EOT GPL DTL hop hwr hphase hlen
      exact ⟨t, ht, trl, trp, t1, t2, t3, t4, t5, t6, fun _ => t0⟩
  obtain ⟨t, ht, trl, trp, t1, t2, t3, t4, t5, t6, t0⟩ := key
  refine ⟨t, ht, trl, trp, t1, t2, t3, t4, t5, t6, ?_, t0⟩
  simp [resultBytes, trl, List.range_succ, t1, t2, t3, t4, t5, t6]

theorem C9_result_echo_witness :
    (∃ t, (demoAttached 0).submit [0x06, 0x00, 0x02, 0x00, 0x03, 0x02, 0x0A, 0x1B, 0xFF]
        = some t ∧
      t.m_resultlen = 7 ∧ t.m_resultpos = 0 ∧
      t.m_result 1 = 0 ∧ t.m_result 2 = 0 ∧
      t.m_result 3 = 0x02 ∧ t.m_result 4 = 0x00 ∧ t.m_result 5 = 0x03 ∧ t.m_result 6 = 0x02 ∧
      t.resultBytes = [t.m_result 0, 0, 0, 0x02, 0x00, 0x03, 0x02] ∧
      ((demoAttached 0).IsAttached (0x00 &&& 3) = true →
        t.m_result 0 = 0x20 ||| (0x00 &&& 3))) ∧
    ((demoAttached 0).submit [0x06, 0x00, 0x02, 0x00, 0x03, 0x02, 0x0A, 0x1B, 0xFF]).map
      (fun t => t.resultBytes) = some [0x20, 0x00, 0x00, 0x02, 0x00, 0x03, 0x02] :=
  ⟨C9_result_echo (demoAttached 0) 0x06 0x00 0x02 0x00 0x03 0x02 0x0A 0x1B 0xFF (by decide)
    (by decide) rfl rfl (fun _ _ => by decide), by decide⟩

theorem Reset_frame (s : CFloppyController) :
    s.Reset.m_phase = FLOPPY_PHASE_CMD ∧ s.Reset.m_commandlen = 0 ∧
    s.Reset.m_pBoard = s.m_pBoard ∧ s.Reset.m_drivedata = s.m_drivedata := by
  have h : s.FlushChanges = s := by
    unfold FlushChanges
    split
    · rfl
    · split <;> rfl
  simp [Reset, h]

/-- C10 (as stated, refuted): in the scenario, on a freshly reset controller whose
drive 0 is attached, the first buffer-fill call receives offset 21504, which
is the value of `(2*2+0)*5120 + 2*512`, and not 11264. -/
theorem C10_counterexample :
    (((demoAttached 0).Reset.submit [0x06, 0x00, 0x02, 0x00, 0x03, 0x02, 0x0A, 0x1B, 0xFF]).bind
      (fun t => t.m_pBoard.fillCalls.head?)) = some { slot := 0, offset := 21504 } ∧
    (2 * 2 + 0) * 5120 + 2 * 512 = 21504 ∧
    (((demoAttached 0).Reset.submit [0x06, 0x00, 0x02, 0x00, 0x03, 0x02, 0x0A, 0x1B, 0xFF]).bind
      (fun t => t.m_pBoard.fillCalls.head?)) ≠ some { slot := 0, offset := 11264 } := by
  decide

/-- C10 (amended): the bytes `0x06, 0x00, 0x02, 0x00, 0x03, 0x02, 0x0A, 0x1B, 0xFF`
submitted to a freshly reset controller whose drive 0 is attached and whose
callback eventually answers stop: the command selects drive 0 and the first
buffer-fill call it makes receives drive 0's backing buffer at offset
`(2*2+0)*5120 + 2*512 = 21504`. -/
theorem C10_read_data_scenario (s : CFloppyController)
    (hatt : s.IsAttached 0 = true) (hstop : false ∈ s.m_pBoard.fillAnswers) :
    ∃ t later, s.Reset.submit [0x06, 0x00, 0x02, 0x00, 0x03, 0x02, 0x0A, 0x1B, 0xFF] = some t ∧
      t.m_pBoard.fillCalls =
        s.m_pBoard.fillCalls ++ { slot := 0, offset := (2 * 2 + 0) * 5120 + 2 * 512 } :: later ∧
      (2 * 2 + 0) * 5120 + 2 * 512 = 21504 ∧ t.m_drive = 0 := by
  obtain ⟨hph, hcl, hbd, hdd⟩ := Reset_frame s
  have hatt2 : s.Reset.IsAttached (0x00 &&& 3) = true := by
    simp only [IsAttached, hdd]; exact hatt
  obtain ⟨t, ht, _, _, _, _, _, _, _, _, _, _, _, _, hb, hd, _⟩ :=
    read_data_attached s.Reset 0x06 0x00 0x02 0x00 0x03 0x02 0x0A 0x1B 0xFF (by decide)
      (by decide) hph hcl hatt2 (by rw [hbd]; exact hstop)
  refine ⟨t, (List.map Nat.succ (List.range (firstStop s.m_pBoard.fillAnswers))).map
    (fun j => { slot := 0, offset := sectorOffset 2 0 (sectorFrom ((3 + 255) % 256) j) }),
    ht, ?_, by decide, hd⟩
  rw [hb, hbd, List.range_succ_eq_map, List.map_cons]
  rfl

theorem C10_read_data_scenario_witness :
    ∃ t later, (demoAttached 0).Reset.submit
        [0x06, 0x00, 0x02, 0x00, 0x03, 0x02, 0x0A, 0x1B, 0xFF] = some t ∧
      t.m_pBoard.fillCalls =
        (demoAttached 0).m_pBoard.fillCalls ++
          { slot := 0, offset := (2 * 2 + 0) * 5120 + 2 * 512 } :: later ∧
      (2 * 2 + 0) * 5120 + 2 * 512 = 21504 ∧ t.m_drive = 0 :=
  C10_read_data_scenario (demoAttached 0) (by decide) (by decide)

/-- C11: Seek `0x0F, b1, b2` and Recalibrate `0x07, b1`, submitted byte by byte in
Command phase with an empty command buffer. Every byte before the last is
classified Incomplete; the last byte completes the command (Seek, Recalibrate),
after which the phase is Command, the interrupt flag is set, no result byte is
queued (result length 0, a following `FifoRead` returns `0xFF`), the command
length is 0 and the board has received no call. -/
theorem C11_seek_recalibrate (s : CFloppyController) (b1 b2 : Nat)
    (hphase : s.m_phase = FLOPPY_PHASE_CMD) (hlen : s.m_commandlen = 0) :
    (∃ t1 t2 t3, s.FifoWrite 0x0F = some t1 ∧
      t1.CheckCommand = FLOPPY_COMMAND_INCOMPLETE ∧ t1.m_phase = FLOPPY_PHASE_CMD ∧
      t1.FifoWrite b1 = some t2 ∧
      t2.CheckCommand = FLOPPY_COMMAND_INCOMPLETE ∧ t2.m_phase = FLOPPY_PHASE_CMD ∧
      (t2.pushCommandByte b2).CheckCommand = FLOPPY_COMMAND_SEEK ∧
      t2.FifoWrite b2 = some t3 ∧ s.submit [0x0F, b1, b2] = some t3 ∧
      t3.m_phase = FLOPPY_PHASE_CMD ∧ t3.m_int = true ∧ t3.m_resultlen = 0 ∧
      t3.FifoRead.1 = 0xFF ∧ t3.m_commandlen = 0 ∧ t3.m_pBoard = s.m_pBoard) ∧
    (∃ t1 t2, s.FifoWrite 0x07 = some t1 ∧
      t1.CheckCommand = FLOPPY_COMMAND_INCOMPLETE ∧ t1.m_phase = FLOPPY_PHASE_CMD ∧
      (t1.pushCommandByte b1).CheckCommand = FLOPPY_COMMAND_RECALIBRATE ∧
      t1.FifoWrite b1 = some t2 ∧ s.submit [0x07, b1] = some t2 ∧
      t2.m_phase = FLOPPY_PHASE_CMD ∧ t2.m_int = true ∧ t2.m_resultlen = 0 ∧
      t2.FifoRead.1 = 0xFF ∧ t2.m_commandlen = 0 ∧ t2.m_pBoard = s.m_pBoard) := by
  constructor
  · simp [submit, FifoWrite, pushCommandByte, CheckCommand, StartCommand, ExecuteCommand,
      FifoRead, setAt, hphase, hlen]
  · simp [submit, FifoWrite, pushCommandByte, CheckCommand, StartCommand, ExecuteCommand,
      FifoRead, setAt, hphase, hlen]

theorem C11_seek_recalibrate_witness :
    ∃ t1 t2 t3, demoController.FifoWrite 0x0F = some t1 ∧
      t1.CheckCommand = FLOPPY_COMMAND_INCOMPLETE ∧ t1.m_phase = FLOPPY_PHASE_CMD ∧
      t1.FifoWrite 0x01 = some t2 ∧
      t2.CheckCommand = FLOPPY_COMMAND_INCOMPLETE ∧ t2.m_phase = FLOPPY_PHASE_CMD ∧
      (t2.pushCommandByte 0x05).CheckCommand = FLOPPY_COMMAND_SEEK ∧
      t2.FifoWrite 0x05 = some t3 ∧ demoController.submit [0x0F, 0x01, 0x05] = some t3 ∧
      t3.m_phase = FLOPPY_PHASE_CMD ∧ t3.m_int = true ∧ t3.m_resultlen = 0 ∧
      t3.FifoRead.1 = 0xFF ∧ t3.m_commandlen = 0 ∧ t3.m_pBoard = demoController.m_pBoard :=
  (C11_seek_recalibrate demoController 0x01 0x05 rfl rfl).1

/-- One `FifoRead` in Result phase with an unread result byte. -/
theorem FifoRead_result (s : CFloppyController) (hphase : s.m_phase = FLOPPY_PHASE_RESULT)
    (hlt : s.m_resultpos < s.m_resultlen) :
    s.FifoRead.1 = s.m_result s.m_resultpos ∧
    s.FifoRead.2.m_resultpos = s.m_resultpos + 1 ∧
    s.FifoRead.2.m_int = false ∧
    s.FifoRead.2.m_result = s.m_result ∧
    s.FifoRead.2.m_resultlen = s.m_resultlen ∧
    s.FifoRead.2.m_phase =
      (if s.m_resultpos + 1 = s.m_resultlen then FLOPPY_PHASE_CMD else FLOPPY_PHASE_RESULT) := by
  have h1 : (s.m_resultlen ≤ s.m_resultpos + 1) ↔ (s.m_resultpos + 1 = s.m_resultlen) := by
    omega
  simp only [FifoRead, hphase, hlt, if_true, ge_iff_le, h1]
  refine ⟨trivial, ?_, ?_, ?_, ?_, ?_⟩ <;> split <;> simp_all

/-- Reading the rest of a staged result: from cursor `p` with `n` unread bytes,
`n` reads return them in order, the phase is Result before each read and
Command after the last. -/
theorem readMany_result : ∀ (n : Nat) (s : CFloppyController),
    s.m_phase = FLOPPY_PHASE_RESULT → s.m_resultpos + (n + 1) = s.m_resultlen →
    (readMany (n + 1) s).1 = (List.range (n + 1)).map (fun j => s.m_result (s.m_resultpos + j)) ∧
    (readMany (n + 1) s).2.m_phase = FLOPPY_PHASE_CMD ∧
    ∀ k, k ≤ n → (readMany k s).2.m_phase = FLOPPY_PHASE_RESULT := by
  intro n
  induction n with
  | zero =>
    intro s hp hl
    obtain ⟨h1, _, _, _, _, h6⟩ := FifoRead_result s hp (by omega)
    refine ⟨?_, ?_, ?_⟩
    · simp [readMany, h1, List.range_succ]
    · simp only [readMany]
      rw [h6, if_pos (by omega)]
    · intro k hk
      have : k = 0 := by omega
      subst this
      exact hp
  | succ n ih =>
    intro s hp hl
    obtain ⟨h1, h2, _, h4, h5, h6⟩ := FifoRead_result s hp (by omega)
    have hp2 : s.FifoRead.2.m_phase = FLOPPY_PHASE_RESULT := by
      rw [h6, if_neg (by omega)]
    obtain ⟨i1, i2, i3⟩ := ih s.FifoRead.2 hp2 (by rw [h2, h5]; omega)
    refine ⟨?_, ?_, ?_⟩
    · show s.FifoRead.1 :: (readMany (n + 1) s.FifoRead.2).1 = _
      rw [i1, h1, h2, h4, List.range_succ_eq_map (n + 1), List.map_cons, List.map_map]
      simp only [Nat.add_zero, List.cons.injEq, true_and]
      apply List.map_congr_left
      intro j _
      simp only [Function.comp, Nat.succ_eq_add_one]
      congr 1
      omega
    · exact i2
    · intro k hk
      cases k with
      | zero => exact hp
      | succ k => exact i3 k (by omega)

/-- C12: `FifoRead` in Result phase with `m_resultpos < m_resultlen` returns
`m_result[m_resultpos]`, advances the cursor by one, clears the interrupt flag,
leaves the result bytes and their length unchanged, and leaves phase Command
exactly when the new cursor equals `m_resultlen`, phase Result otherwise.
Hence, from cursor 0, `m_resultlen` successive reads return the staged bytes in
order, the phase is Result before each of them and Command after the last. -/
theorem C12_FifoRead_consumes_result (s : CFloppyController)
    (hphase : s.m_phase = FLOPPY_PHASE_RESULT) (hlt : s.m_resultpos < s.m_resultlen) :
    s.FifoRead.1 = s.m_result s.m_resultpos ∧
    s.FifoRead.2.m_resultpos = s.m_resultpos + 1 ∧
    s.FifoRead.2.m_int = false ∧
    s.FifoRead.2.m_result = s.m_result ∧
    s.FifoRead.2.m_resultlen = s.m_resultlen ∧
    (s.FifoRead.2.m_phase = FLOPPY_PHASE_CMD ↔ s.FifoRead.2.m_resultpos = s.m_resultlen) ∧
    (s.FifoRead.2.m_phase ≠ FLOPPY_PHASE_CMD → s.FifoRead.2.m_phase = FLOPPY_PHASE_RESULT) ∧
    (s.m_resultpos = 0 →
      (readMany s.m_resultlen s).1 = s.resultBytes ∧
      (readMany s.m_resultlen s).2.m_phase = FLOPPY_PHASE_CMD ∧
      ∀ k, k < s.m_resultlen → (readMany k s).2.m_phase = FLOPPY_PHASE_RESULT) := by
  obtain ⟨h1, h2, h3, h4, h5, h6⟩ := FifoRead_result s hphase hlt
  refine ⟨h1, h2, h3, h4, h5, ?_, ?_, ?_⟩
  · rw [h6, h2]
    split <;> simp_all
  · rw [h6]
    split <;> simp
  · intro h0
    obtain ⟨n, hn⟩ : ∃ n, s.m_resultlen = n + 1 := ⟨s.m_resultlen - 1, by omega⟩
    obtain ⟨r1, r2, r3⟩ := readMany_result n s hphase (by omega)
    rw [hn]
    refine ⟨?_, r2, fun k hk => r3 k (by omega)⟩
    rw [r1]
    simp [resultBytes, hn, h0]

theorem C12_FifoRead_consumes_result_witness :
    demoResult.FifoRead.1 = demoResult.m_result demoResult.m_resultpos ∧
    demoResult.FifoRead.2.m_resultpos = demoResult.m_resultpos + 1 ∧
    demoResult.FifoRead.2.m_int = false ∧
    demoResult.FifoRead.2.m_result = demoResult.m_result ∧
    demoResult.FifoRead.2.m_resultlen = demoResult.m_resultlen ∧
    (demoResult.FifoRead.2.m_phase = FLOPPY_PHASE_CMD ↔
      demoResult.FifoRead.2.m_resultpos = demoResult.m_resultlen) ∧
    (demoResult.FifoRead.2.m_phase ≠ FLOPPY_PHASE_CMD →
      demoResult.FifoRead.2.m_phase = FLOPPY_PHASE_RESULT) ∧
    (demoResult.m_resultpos = 0 →
      (readMany demoResult.m_resultlen demoResult).1 = demoResult.resultBytes ∧
      (readMany demoResult.m_resultlen demoResult).2.m_phase = FLOPPY_PHASE_CMD ∧
      ∀ k, k < demoResult.m_resultlen →
        (readMany k demoResult).2.m_phase = FLOPPY_PHASE_RESULT) :=
  C12_FifoRead_consumes_result demoResult rfl (by decide)

/-- C13: the FIFO operations outside their phase are no-ops. In a phase other than
Command `FifoWrite` returns with the whole controller state unchanged, for
every byte; in a phase other than Result `FifoRead` returns `0xFF` and leaves
the whole controller state unchanged. -/
theorem C13_fifo_outside_phase (s : CFloppyController) :
    (s.m_phase ≠ FLOPPY_PHASE_CMD → ∀ v, s.FifoWrite v = some s) ∧
    (s.m_phase ≠ FLOPPY_PHASE_RESULT → s.FifoRead = (0xFF, s)) := by
  constructor
  · intro h v
    simp [FifoWrite, h]
  · intro h
    unfold FifoRead
    split
    · rfl
    · rfl
    · rename_i h2
      exact absurd h2 h

theorem C13_fifo_outside_phase_witness :
    demoStalled.FifoWrite 0x08 = some demoStalled ∧ demoStalled.FifoRead = (0xFF, demoStalled) :=
  ⟨(C13_fifo_outside_phase demoStalled).1 (by decide) 0x08,
    (C13_fifo_outside_phase demoStalled).2 (by decide)⟩

/-- C14: `GetState` is a pure function of the phase. It leaves the controller
state unchanged, two states with equal phase give equal status bytes, and for
byte-sized masks the byte is exactly `FLOPPY_MSR_RQM` in Command, exactly
`FLOPPY_MSR_CB` in Execution and exactly `FLOPPY_MSR_RQM | FLOPPY_MSR_DIO |
FLOPPY_MSR_CB` in Result. -/
theorem C14_GetState_phase ( FLOPPY_MSR_RQM FLOPPY_MSR_DIO FLOPPY_MSR_CB : Nat)
    (hrqm : FLOPPY_MSR_RQM < 256) (hdio : FLOPPY_MSR_DIO < 256) (hcb : FLOPPY_MSR_CB < 256)
    (s : CFloppyController) :
    (s.GetState FLOPPY_MSR_RQM FLOPPY_MSR_DIO FLOPPY_MSR_CB).2 = s ∧
    (∀ t : CFloppyController, t.m_phase = s.m_phase →
      (t.GetState FLOPPY_MSR_RQM FLOPPY_MSR_DIO FLOPPY_MSR_CB).1 =
        (s.GetState FLOPPY_MSR_RQM FLOPPY_MSR_DIO FLOPPY_MSR_CB).1) ∧
    (s.m_phase = FLOPPY_PHASE_CMD →
      (s.GetState FLOPPY_MSR_RQM FLOPPY_MSR_DIO FLOPPY_MSR_CB).1 = FLOPPY_MSR_RQM) ∧
    (s.m_phase = FLOPPY_PHASE_EXEC →
      (s.GetState FLOPPY_MSR_RQM FLOPPY_MSR_DIO FLOPPY_MSR_CB).1 = FLOPPY_MSR_CB) ∧
    (s.m_phase = FLOPPY_PHASE_RESULT →
      (s.GetState FLOPPY_MSR_RQM FLOPPY_MSR_DIO FLOPPY_MSR_CB).1 =
        FLOPPY_MSR_RQM ||| FLOPPY_MSR_DIO ||| FLOPPY_MSR_CB) := by
  have hor : FLOPPY_MSR_RQM ||| FLOPPY_MSR_DIO ||| FLOPPY_MSR_CB < 256 :=
    Nat.or_lt_two_pow (n := 8) (Nat.or_lt_two_pow (n := 8) hrqm hdio) hcb
  refine ⟨rfl, ?_, ?_, ?_, ?_⟩
  · intro t ht
    simp only [GetState, ht]
  · intro h
    simp only [GetState, h, Nat.zero_or]
    exact Nat.mod_eq_of_lt hrqm
  · intro h
    simp only [GetState, h, Nat.zero_or]
    exact Nat.mod_eq_of_lt hcb
  · intro h
    simp only [GetState, h, Nat.zero_or]
    exact Nat.mod_eq_of_lt hor

theorem C14_GetState_phase_witness :
    (demoController.GetState 0x80 0x40 0x10).2 = demoController ∧
    (∀ t : CFloppyController, t.m_phase = demoController.m_phase →
      (t.GetState 0x80 0x40 0x10).1 = (demoController.GetState 0x80 0x40 0x10).1) ∧
    (demoController.m_phase = FLOPPY_PHASE_CMD →
      (demoController.GetState 0x80 0x40 0x10).1 = 0x80) ∧
    (demoController.m_phase = FLOPPY_PHASE_EXEC →
      (demoController.GetState 0x80 0x40 0x10).1 = 0x10) ∧
    (demoController.m_phase = FLOPPY_PHASE_RESULT →
      (demoController.GetState 0x80 0x40 0x10).1 = 0x80 ||| 0x40 ||| 0x10) :=
  C14_GetState_phase 0x80 0x40 0x10 (by decide) (by decide) (by decide) demoController

theorem FlushChanges_eq (s : CFloppyController) : s.FlushChanges = s := by
  unfold FlushChanges
  split
  · rfl
  · split <;> rfl

/-- C16: `Reset` leaves phase Command, command length 0, result length 0, result
cursor 0 and the interrupt flag clear, and leaves the four drives exactly as
they were: every drive keeps its handle, read-only flag, backing buffer and
cursor fields, so no file is closed. -/
theorem C16_Reset_preserves_drives (s : CFloppyController) :
    s.Reset.m_phase = FLOPPY_PHASE_CMD ∧ s.Reset.m_commandlen = 0 ∧
    s.Reset.m_resultlen = 0 ∧ s.Reset.m_resultpos = 0 ∧ s.Reset.m_int = false ∧
    s.Reset.m_drivedata = s.m_drivedata ∧
    (∀ i, i < 4 →
      (s.Reset.m_drivedata i).fpFile = (s.m_drivedata i).fpFile ∧
      (s.Reset.m_drivedata i).okReadOnly = (s.m_drivedata i).okReadOnly ∧
      (s.Reset.m_drivedata i).data = (s.m_drivedata i).data ∧
      (s.Reset.m_drivedata i).datatrack = (s.m_drivedata i).datatrack ∧
      (s.Reset.m_drivedata i).dataside = (s.m_drivedata i).dataside ∧
      (s.Reset.m_drivedata i).dataptr = (s.m_drivedata i).dataptr) := by
  have hd : s.Reset.m_drivedata = s.m_drivedata := by
    simp [Reset, FlushChanges_eq]
  refine ⟨rfl, rfl, rfl, rfl, rfl, hd, ?_⟩
  intro i _
  rw [hd]
  exact ⟨rfl, rfl, rfl, rfl, rfl, rfl⟩

/-! ## Attach and detach -/

theorem DetachImage_unattached (s : CFloppyController) (i : Nat)
    (h : (s.m_drivedata i).fpFile = none) : s.DetachImage i = s := by
  simp [DetachImage, h]

theorem DetachImage_attached (s : CFloppyController) (i : Nat)
    (h : (s.m_drivedata i).fpFile ≠ none) :
    s.DetachImage i =
      { s with m_drivedata := fun j => if j = i then CFloppyDrive.ctor else s.m_drivedata j } := by
  have h2 : (s.m_drivedata i).fpFile.isNone = false := by
    cases hf : (s.m_drivedata i).fpFile with
    | none => exact absurd hf h
    | some _ => rfl
  simp only [DetachImage, h2, FlushChanges_eq, setDrive, CFloppyDrive.Reset, CFloppyDrive.ctor]
  simp only [Bool.false_eq_true, if_false, if_true]
  congr 1
  funext j
  split <;> rfl

theorem AttachImage_fail_unattached (s : CFloppyController) (i : Nat)
    (h : (s.m_drivedata i).fpFile = none) :
    s.AttachImage i none none = some (false,
      { s with m_drivedata := fun j =>
          if j = i then { s.m_drivedata i with okReadOnly := true } else s.m_drivedata j }) := by
  simp only [AttachImage, h, setDrive]
  simp only [Option.isSome_none, Bool.false_eq_true, if_false, if_true, Option.isNone_none]
  congr 3
  funext j
  split
  · rename_i hj
    subst hj
    simp [h]
  · rfl

theorem AttachImage_fail_attached (s : CFloppyController) (i : Nat)
    (h : (s.m_drivedata i).fpFile ≠ none) :
    s.AttachImage i none none = some (false,
      { s with m_drivedata := fun j =>
          if j = i then { CFloppyDrive.ctor with okReadOnly := true } else s.m_drivedata j }) := by
  have h2 : (s.m_drivedata i).fpFile.isSome = true := by
    cases hf : (s.m_drivedata i).fpFile with
    | none => exact absurd hf h
    | some _ => rfl
  simp only [AttachImage, h2, if_true, DetachImage_attached s i h, setDrive]
  simp only [if_true, CFloppyDrive.ctor, Option.isNone_none]
  congr 3
  funext j
  split <;> rfl

theorem AttachImage_success_handle (s : CFloppyController) (i : Nat)
    (rw ro : Option (List Nat)) (t : CFloppyController)
    (h : s.AttachImage i rw ro = some (true, t)) : (t.m_drivedata i).fpFile ≠ none := by
  unfold AttachImage at h
  generalize (if (s.m_drivedata i).fpFile.isSome = true then s.DetachImage i else s) = s0 at h
  cases rw with
  | some a =>
    simp [setDrive] at h
    split at h
    · simp at h
      rw [← h]
      simp
      split <;> simp
    · simp at h
  | none =>
    cases ro with
    | none => simp [setDrive] at h
    | some b =>
      simp [setDrive] at h
      split at h
      · simp at h
        rw [← h]
        simp
        split <;> simp
      · simp at h

/-- C17: `DetachImage(i)` on a drive that is not attached is the identity on the
whole controller state; on an attached drive it leaves drive `i` as freshly
constructed (no handle, not read-only, no buffer, cursor fields zero) and
changes nothing else. Hence detaching twice equals detaching once, and after a
successful attach, which leaves drive `i` open, a detach leaves drive `i`
without handle and without backing buffer. -/
theorem C17_DetachImage (s : CFloppyController) (i : Nat) (hi : i < 4) :
    ((s.m_drivedata i).fpFile = none → s.DetachImage i = s) ∧
    ((s.m_drivedata i).fpFile ≠ none →
      s.DetachImage i =
        { s with m_drivedata := fun j =>
            if j = i then
              { fpFile := none, okReadOnly := false, datatrack := 0, dataside := 0,
                dataptr := 0, data := none }
            else s.m_drivedata j }) ∧
    (s.DetachImage i).DetachImage i = s.DetachImage i ∧
    (∀ rw ro t, s.AttachImage i rw ro = some (true, t) →
      (t.m_drivedata i).fpFile ≠ none ∧
      ((t.DetachImage i).m_drivedata i).fpFile = none ∧
      ((t.DetachImage i).m_drivedata i).data = none) := by
  have _ := hi
  refine ⟨DetachImage_unattached s i, DetachImage_attached s i, ?_, ?_⟩
  · by_cases h : (s.m_drivedata i).fpFile = none
    · rw [DetachImage_unattached s i h, DetachImage_unattached s i h]
    · apply DetachImage_unattached
      rw [DetachImage_attached s i h]
      simp [CFloppyDrive.ctor]
  · intro rw ro t ht
    have hne := AttachImage_success_handle s i rw ro t ht
    rw [DetachImage_attached t i hne]
    simp [hne, CFloppyDrive.ctor]

theorem C17_DetachImage_witness :
    (((demoAttached 0).m_drivedata 0).fpFile = none → (demoAttached 0).DetachImage 0 = demoAttached 0) ∧
    (((demoAttached 0).m_drivedata 0).fpFile ≠ none →
      (demoAttached 0).DetachImage 0 =
        { demoAttached 0 with m_drivedata := fun j =>
            if j = 0 then
              { fpFile := none, okReadOnly := false, datatrack := 0, dataside := 0,
                dataptr := 0, data := none }
            else (demoAttached 0).m_drivedata j }) ∧
    ((demoAttached 0).DetachImage 0).DetachImage 0 = (demoAttached 0).DetachImage 0 ∧
    (∀ rw ro t, (demoAttached 0).AttachImage 0 rw ro = some (true, t) →
      (t.m_drivedata 0).fpFile ≠ none ∧
      ((t.DetachImage 0).m_drivedata 0).fpFile = none ∧
      ((t.DetachImage 0).m_drivedata 0).data = none) :=
  C17_DetachImage (demoAttached 0) 0 (by decide)

/-- C18 (as stated, refuted): when both opens fail, `AttachImage(0, path)` on a
controller whose drive 0 is attached returns false and leaves drive 0 without
its handle and without its backing buffer; on a freshly constructed controller
it returns false and leaves drive 0 with the read-only flag set. -/
theorem C18_counterexample :
    ((demoAttached 0).m_drivedata 0).fpFile = some [1, 2, 3] ∧
    ((demoAttached 0).m_drivedata 0).data = some [1, 2, 3] ∧
    ((demoAttached 0).AttachImage 0 none none).map
      (fun r => (r.1, (r.2.m_drivedata 0).fpFile, (r.2.m_drivedata 0).data))
      = some (false, none, none) ∧
    (demoController.m_drivedata 0).okReadOnly = false ∧
    (demoController.AttachImage 0 none none).map
      (fun r => (r.1, (r.2.m_drivedata 0).okReadOnly)) = some (false, true) := by
  decide

/-- C18 (amended): when the file can be opened neither read-write nor read-only,
`AttachImage(i, path)` returns false and leaves drive `i` without an open
handle. A drive that was attached before the call has been detached first: it
has no backing buffer and its cursor fields are zero. A drive that was not
attached keeps its backing buffer and cursor fields as before. The other
drives and the rest of the controller are unchanged. -/
theorem C18_attach_failure (s : CFloppyController) (i : Nat) (hi : i < 4) :
    ∃ t, s.AttachImage i none none = some (false, t) ∧
      (t.m_drivedata i).fpFile = none ∧
      ((s.m_drivedata i).fpFile ≠ none →
        (t.m_drivedata i).data = none ∧ (t.m_drivedata i).datatrack = 0 ∧
        (t.m_drivedata i).dataside = 0 ∧ (t.m_drivedata i).dataptr = 0) ∧
      ((s.m_drivedata i).fpFile = none →
        (t.m_drivedata i).data = (s.m_drivedata i).data ∧
        (t.m_drivedata i).datatrack = (s.m_drivedata i).datatrack ∧
        (t.m_drivedata i).dataside = (s.m_drivedata i).dataside ∧
        (t.m_drivedata i).dataptr = (s.m_drivedata i).dataptr) ∧
      (∀ j, j ≠ i → t.m_drivedata j = s.m_drivedata j) ∧
      { t with m_drivedata := s.m_drivedata } = s := by
  have _ := hi
  by_cases h : (s.m_drivedata i).fpFile = none
  · refine ⟨_, AttachImage_fail_unattached s i h, ?_, fun h2 => absurd h h2, ?_, ?_, rfl⟩
    · simp [h]
    · intro _
      simp
    · intro j hj
      simp [hj]
  · refine ⟨_, AttachImage_fail_attached s i h, ?_, ?_, fun h2 => absurd h2 h, ?_, rfl⟩
    · simp [CFloppyDrive.ctor]
    · intro _
      simp [CFloppyDrive.ctor]
    · intro j hj
      simp [hj]

theorem C18_attach_failure_witness :
    ∃ t, (demoAttached 0).AttachImage 0 none none = some (false, t) ∧
      (t.m_drivedata 0).fpFile = none ∧
      (((demoAttached 0).m_drivedata 0).fpFile ≠ none →
        (t.m_drivedata 0).data = none ∧ (t.m_drivedata 0).datatrack = 0 ∧
        (t.m_drivedata 0).dataside = 0 ∧ (t.m_drivedata 0).dataptr = 0) ∧
      (((demoAttached 0).m_drivedata 0).fpFile = none →
        (t.m_drivedata 0).data = ((demoAttached 0).m_drivedata 0).data ∧
        (t.m_drivedata 0).datatrack = ((demoAttached 0).m_drivedata 0).datatrack ∧
        (t.m_drivedata 0).dataside = ((demoAttached 0).m_drivedata 0).dataside ∧
        (t.m_drivedata 0).dataptr = ((demoAttached 0).m_drivedata 0).dataptr) ∧
      (∀ j, j ≠ 0 → t.m_drivedata j = (demoAttached 0).m_drivedata j) ∧
      { t with m_drivedata := (demoAttached 0).m_drivedata } = demoAttached 0 :=
  C18_attach_failure (demoAttached 0) 0 (by decide)

/-! ## Complete commands of any kind -/

set_option maxRecDepth 100000 in
theorem table_rows : ∀ b < 256, rowProp b := by
  decide

theorem pushAll_command_lt : ∀ (bs : List Nat) (s : CFloppyController) (i : Nat),
    i < s.m_commandlen → (pushAll s bs).m_command i = s.m_command i := by
  intro bs
  induction bs with
  | nil => intro s i _; rfl
  | cons b bs ih =>
    intro s i hi
    simp only [pushAll]
    rw [ih (s.pushCommandByte b) i (by simp only [pushCommandByte]; omega)]
    simp only [pushCommandByte, setAt]
    rw [if_neg (by omega)]

/-- While fewer bytes are buffered than the command of first byte `op` needs,
every byte is classified Incomplete, so `submit` only appends. -/
theorem submit_row_incomplete (op r : Nat) (k : FloppyCommand) (hop : op < 256)
    (hrow : tableRow op = some (r, k)) :
    ∀ (bs : List Nat) (t : CFloppyController), t.m_phase = FLOPPY_PHASE_CMD →
      (t.m_commandlen ≠ 0 → t.m_command 0 = op) →
      (t.m_commandlen = 0 → ∀ b ∈ bs.head?, b = op) →
      t.m_commandlen + bs.length < r →
      t.submit bs = some (pushAll t bs) := by
  have hr := table_rows op hop (r, k) hrow
  intro bs
  induction bs with
  | nil => intro t _ _ _ _; rfl
  | cons b bs ih =>
    intro t hp h1 h0 hl
    simp only [List.length_cons] at hl
    have hfirst : (t.pushCommandByte b).m_command 0 = op := by
      by_cases hz : t.m_commandlen = 0
      · rw [pushCommandByte_first t b hz]
        exact h0 hz b (by simp)
      · rw [pushCommandByte_later t b hz]
        exact h1 hz
    have hlen1 : (t.pushCommandByte b).m_commandlen = t.m_commandlen + 1 := rfl
    have hinc : (t.pushCommandByte b).CheckCommand = FLOPPY_COMMAND_INCOMPLETE := by
      rw [CheckCommand_probe, hfirst, hlen1]
      have hp := probe_table op hop (t.m_commandlen + 1) (by have := hr.2.1; simp at this; omega)
        (by omega)
      exact (hp.2.2 (r, k) hrow).1 (by simp only; omega)
    have hw := FifoWrite_incomplete t b hp hinc
    simp only [submit, hw, pushAll]
    exact ih (t.pushCommandByte b) hp (fun _ => hfirst)
      (fun hz => by rw [hlen1] at hz; omega) (by rw [hlen1]; omega)

/-- A complete command, first byte `op` followed by the parameter bytes `bs`,
submitted from Command phase with an empty command buffer, is one
`StartCommand` of the kind the table gives, on the filled command buffer. -/
theorem submit_row_complete (s : CFloppyController) (op r : Nat) (k : FloppyCommand)
    (bs : List Nat) (hop : op < 256) (hrow : tableRow op = some (r, k))
    (hbs : bs.length + 1 = r)
    (hphase : s.m_phase = FLOPPY_PHASE_CMD) (hlen : s.m_commandlen = 0) :
    s.submit (op :: bs) = (pushAll s (op :: bs)).StartCommand k := by
  have hr := table_rows op hop (r, k) hrow
  have hne : op :: bs ≠ [] := by simp
  have hsplit := List.dropLast_append_getLast hne
  generalize hpre : (op :: bs).dropLast = pre at hsplit
  generalize hlast : (op :: bs).getLast hne = last at hsplit
  have hprelen : pre.length + 1 = r := by
    have := congrArg List.length hsplit
    simp only [List.length_append, List.length_cons, List.length_nil] at this
    omega
  have hhead : ∀ b ∈ pre.head?, b = op := by
    intro b hb
    cases pre with
    | nil => simp at hb
    | cons p ps =>
      simp only [List.cons_append, List.cons.injEq] at hsplit
      simp only [List.head?_cons, Option.mem_def, Option.some.injEq] at hb
      rw [← hb]; exact hsplit.1
  have h1 := submit_row_incomplete op r k hop hrow pre s hphase (fun h => absurd hlen h)
    (fun _ => hhead) (by omega)
  have hf := pushAll_frame s pre
  have hsn := pushAll_snoc s pre last
  rw [hsplit] at hsn
  have h0 : (pushAll s (op :: bs)).m_command 0 = op := by
    simp only [pushAll]
    rw [pushAll_command_lt bs (s.pushCommandByte op) 0 (by simp [pushCommandByte])]
    exact pushCommandByte_first s op hlen
  have hcl : (pushAll s (op :: bs)).m_commandlen = r := by
    rw [(pushAll_frame s (op :: bs)).2.1, hlen]
    simp only [List.length_cons]; omega
  have hchk : (pushAll s (op :: bs)).CheckCommand = k := by
    rw [CheckCommand_probe, h0, hcl]
    have hp := probe_table op hop r (by have := hr.2.1; simp at this; omega)
      (by have := hr.1; simp at this; omega)
    exact (hp.2.2 (r, k) hrow).2 rfl
  have hfw := FifoWrite_valid (pushAll s pre) last (by rw [hf.1, hphase])
    (by rw [hsn, hchk]; exact hr.2.2.2.1) (by rw [hsn, hchk]; exact hr.2.2.1)
  rw [hsn, hchk] at hfw
  rw [← hfw, ← hsplit, submit_append, h1]
  simp only [Option.some_bind, submit]
  cases (pushAll s pre).FifoWrite last <;> rfl

theorem ExecuteCommand_drive (a u : CFloppyController) (cmd : FloppyCommand)
    (h : a.ExecuteCommand cmd = some u) : u.m_drive = a.m_drive := by
  cases cmd <;> simp only [ExecuteCommand] at h
  case FLOPPY_COMMAND_READ_DATA =>
    split at h
    · cases h; rfl
    · split at h
      · cases h
      · cases h; rfl
  all_goals (cases h; rfl)

theorem StartCommand_selects (a u : CFloppyController) (cmd : FloppyCommand)
    (h1 : cmd ≠ FLOPPY_COMMAND_SPECIFY) (h2 : cmd ≠ FLOPPY_COMMAND_SENSE_INTERRUPT_STATUS)
    (h : a.StartCommand cmd = some u) : u.m_drive = a.m_command 1 &&& 3 := by
  simp only [StartCommand] at h
  rw [ExecuteCommand_drive _ _ _ h]
  simp [h1, h2]

theorem StartCommand_specify (a : CFloppyController) :
    ∃ u, a.StartCommand FLOPPY_COMMAND_SPECIFY = some u ∧ u.m_drive = a.m_drive ∧
      u.m_phase = FLOPPY_PHASE_CMD ∧ u.m_resultlen = 0 := by
  simp [StartCommand, ExecuteCommand]

theorem StartCommand_sense_interrupt (a : CFloppyController) :
    ∃ u, a.StartCommand FLOPPY_COMMAND_SENSE_INTERRUPT_STATUS = some u ∧
      u.m_drive = a.m_drive := by
  simp [StartCommand, ExecuteCommand]

theorem pushAll_second (s : CFloppyController) (op b1 : Nat) (rest : List Nat)
    (hlen : s.m_commandlen = 0) : (pushAll s (op :: b1 :: rest)).m_command 1 = b1 := by
  simp only [pushAll]
  rw [pushAll_command_lt rest _ 1 (by simp [pushCommandByte, hlen])]
  simp [pushCommandByte, setAt, hlen]

/-- C15: the drive selection rule. A complete command with first byte `op` and
parameter bytes `bs`, of the kind `k` the table gives, submitted in Command
phase with an empty command buffer. When `k` is neither Specify nor Sense
Interrupt Status the command has a second byte `b1` and, once it has returned
(which it does unless it is a Read Data on an attached drive whose callback
never answers stop), `m_drive` equals `b1 & 3`. When `k` is Specify or Sense
Interrupt Status the command returns with `m_drive` as before, and Specify
leaves phase Command with result length 0. -/
theorem C15_drive_selection (s : CFloppyController) (op r : Nat) (k : FloppyCommand)
    (bs : List Nat) (hop : op < 256) (hrow : tableRow op = some (r, k))
    (hbs : bs.length + 1 = r)
    (hphase : s.m_phase = FLOPPY_PHASE_CMD) (hlen : s.m_commandlen = 0) :
    (k ≠ FLOPPY_COMMAND_SPECIFY → k ≠ FLOPPY_COMMAND_SENSE_INTERRUPT_STATUS →
      ∃ b1 rest, bs = b1 :: rest ∧
        (∀ t, s.submit (op :: bs) = some t → t.m_drive = b1 &&& 3) ∧
        (k ≠ FLOPPY_COMMAND_READ_DATA ∨ s.IsAttached (b1 &&& 3) = false ∨
          false ∈ s.m_pBoard.fillAnswers → ∃ t, s.submit (op :: bs) = some t)) ∧
    (k = FLOPPY_COMMAND_SPECIFY ∨ k = FLOPPY_COMMAND_SENSE_INTERRUPT_STATUS →
      ∃ t, s.submit (op :: bs) = some t ∧ t.m_drive = s.m_drive ∧
        (k = FLOPPY_COMMAND_SPECIFY → t.m_phase = FLOPPY_PHASE_CMD ∧ t.m_resultlen = 0)) := by
  have hsub := submit_row_complete s op r k bs hop hrow hbs hphase hlen
  have hr := table_rows op hop (r, k) hrow
  have hf := pushAll_frame s (op :: bs)
  constructor
  · intro h1 h2
    have hr2 : r ≠ 1 := fun h => h2 (hr.2.2.2.2.1 h)
    cases bs with
    | nil => simp at hbs; omega
    | cons b1 rest =>
      have hc1 := pushAll_second s op b1 rest hlen
      refine ⟨b1, rest, rfl, ?_, ?_⟩
      · intro t ht
        rw [hsub] at ht
        rw [StartCommand_selects _ _ _ h1 h2 ht, hc1]
      · intro hret
        rw [hsub]
        apply StartCommand_returns
        rw [hc1, hf.2.2.2.2.2.1]
        simp only [IsAttached, hf.2.2.2.2.2.2.1]
        exact hret
  · intro hk
    rw [hsub]
    rcases hk with hk | hk
    · subst hk
      obtain ⟨u, hu, hd, hp, hl⟩ := StartCommand_specify (pushAll s (op :: bs))
      exact ⟨u, hu, by rw [hd, hf.2.2.2.2.2.2.2], fun _ => ⟨hp, hl⟩⟩
    · subst hk
      obtain ⟨u, hu, hd⟩ := StartCommand_sense_interrupt (pushAll s (op :: bs))
      exact ⟨u, hu, by rw [hd, hf.2.2.2.2.2.2.2], fun h => by cases h⟩

theorem C15_drive_selection_witness :
    tableRow 0x0F = some (3, FLOPPY_COMMAND_SEEK) ∧
    (FLOPPY_COMMAND_SEEK ≠ FLOPPY_COMMAND_SPECIFY →
      FLOPPY_COMMAND_SEEK ≠ FLOPPY_COMMAND_SENSE_INTERRUPT_STATUS →
      ∃ b1 rest, [0x01, 0x05] = b1 :: rest ∧
        (∀ t, demoController.submit (0x0F :: [0x01, 0x05]) = some t → t.m_drive = b1 &&& 3) ∧
        (FLOPPY_COMMAND_SEEK ≠ FLOPPY_COMMAND_READ_DATA ∨
          demoController.IsAttached (b1 &&& 3) = false ∨
          false ∈ demoController.m_pBoard.fillAnswers →
          ∃ t, demoController.submit (0x0F :: [0x01, 0x05]) = some t)) ∧
    (FLOPPY_COMMAND_SEEK = FLOPPY_COMMAND_SPECIFY ∨
      FLOPPY_COMMAND_SEEK = FLOPPY_COMMAND_SENSE_INTERRUPT_STATUS →
      ∃ t, demoController.submit (0x0F :: [0x01, 0x05]) = some t ∧
        t.m_drive = demoController.m_drive ∧
        (FLOPPY_COMMAND_SEEK = FLOPPY_COMMAND_SPECIFY →
          t.m_phase = FLOPPY_PHASE_CMD ∧ t.m_resultlen = 0)) :=
  ⟨by decide, C15_drive_selection demoController 0x0F 3 FLOPPY_COMMAND_SEEK [0x01, 0x05]
    (by decide) (by decide) rfl rfl rfl⟩

/-- C19 (the code at the failing input): on a freshly constructed controller,
whose `m_pDrive` points at slot 0, drive 0 is attached to a file with bytes
`1, 2, 3` and then drive 1 to a file with bytes `7, 8, 9`. The first attach
reads its own file and leaves that stream at its end. The second attach
succeeds, but `fread` reads from `m_pDrive->fpFile`, the exhausted stream of
drive 0: the buffer of drive 1 starts `0, 0, 0, 0` and the stream of drive 1
is still unread, whereas the content of its file would start `7, 8, 9, 0`.
With no drive attached, attaching drive 1 reads from a null stream. -/
theorem C19_reads_selected_drive_file :
    demoController.m_pDrive = 0 ∧
    (demoController.AttachImage 0 (some [1, 2, 3]) none).map
      (fun r => (r.1, r.2.m_pDrive, (r.2.m_drivedata 0).fpFile,
        (r.2.m_drivedata 0).data.map (List.take 4)))
      = some (true, 0, some [], some [1, 2, 3, 0]) ∧
    ((demoController.AttachImage 0 (some [1, 2, 3]) none).bind
      (fun r => r.2.AttachImage 1 (some [7, 8, 9]) none)).map
      (fun r => (r.1, (r.2.m_drivedata 1).fpFile, (r.2.m_drivedata 1).data.map (List.take 4)))
      = some (true, some [7, 8, 9], some [0, 0, 0, 0]) ∧
    (freadInto (List.replicate imageSize 0) [7, 8, 9] imageSize).take 4 = [7, 8, 9, 0] ∧
    (demoController.AttachImage 1 (some [7, 8, 9]) none).isNone = true := by
  decide


/-! ## A stalled controller -/

theorem FifoWrite_other_phase (s : CFloppyController) (v : Nat)
    (h : s.m_phase ≠ FLOPPY_PHASE_CMD) : s.FifoWrite v = some s := by
  simp [FifoWrite, h]

theorem FifoRead_exec (s : CFloppyController) (h : s.m_phase = FLOPPY_PHASE_EXEC) :
    s.FifoRead = (0xFF, s) := by
  simp [FifoRead, h]

theorem Periodic_eq (s : CFloppyController) : s.Periodic = s := by
  unfold Periodic
  split <;> rfl

/-- In Execution phase every sequence of register calls leaves the whole
controller state unchanged, and every `FifoRead` in it returns `0xFF`. -/
theorem runCalls_exec ( FLOPPY_MSR_RQM FLOPPY_MSR_DIO FLOPPY_MSR_CB : Nat)
    (t : CFloppyController) (h : t.m_phase = FLOPPY_PHASE_EXEC) :
    ∀ calls : List HostCall,
      runCalls FLOPPY_MSR_RQM FLOPPY_MSR_DIO FLOPPY_MSR_CB t calls =
        some (List.replicate (countReads calls) 0xFF, t) := by
  intro calls
  induction calls with
  | nil => rfl
  | cons c rest ih =>
    cases c with
    | fifoWrite v =>
      simp only [runCalls, FifoWrite_other_phase t v (by rw [h]; decide), countReads]
      exact ih
    | fifoRead =>
      simp only [runCalls, FifoRead_exec t h, ih, countReads, List.replicate_succ]
    | getState =>
      simp only [runCalls, GetState, countReads]
      exact ih
    | periodic =>
      simp only [runCalls, Periodic_eq, countReads]
      exact ih

theorem pushAll_int (s : CFloppyController) (b : Nat) (bs : List Nat) :
    (pushAll s (b :: bs)).m_int = false := by
  induction bs generalizing s b with
  | nil => rfl
  | cons c cs ih => exact ih (s.pushCommandByte b) c

theorem StartCommand_unimplemented (a : CFloppyController) (k : FloppyCommand)
    (hk : isUnimplemented k) :
    (∀ e : CFloppyController, e.ExecuteCommand k = some e) ∧
    ∃ u, a.StartCommand k = some u ∧ u.m_phase = FLOPPY_PHASE_EXEC ∧ u.m_resultlen = 0 ∧
      u.m_resultpos = 0 ∧ u.m_commandlen = 0 ∧ u.m_int = a.m_int ∧
      u.m_pBoard = a.m_pBoard := by
  rcases hk with h | h | h | h | h | h | h <;> subst h <;>
    simp [StartCommand, ExecuteCommand]

/-- C20: a structurally valid but unimplemented command stalls the controller. A
complete command of kind Read Track, Sense Drive Status, Read ID, Format Track
or Scan Equal, Low or High, submitted in Command phase with an empty command
buffer: the executor changes nothing for such a kind, so the command returns
with phase Execution, no result bytes, the interrupt flag clear and no call to
the board. From that state every sequence of `FifoWrite`, `FifoRead`,
`GetState` and `Periodic` calls leaves the controller state, and so the phase,
unchanged, and every `FifoRead` in it returns `0xFF`; `Reset` leaves phase
Command. -/
theorem C20_unimplemented_stalls ( FLOPPY_MSR_RQM FLOPPY_MSR_DIO FLOPPY_MSR_CB : Nat)
    (s : CFloppyController) (op r : Nat) (k : FloppyCommand)
    (bs : List Nat) (hop : op < 256) (hrow : tableRow op = some (r, k))
    (hbs : bs.length + 1 = r) (hk : isUnimplemented k)
    (hphase : s.m_phase = FLOPPY_PHASE_CMD) (hlen : s.m_commandlen = 0) :
    (∀ e : CFloppyController, e.ExecuteCommand k = some e) ∧
    ∃ t, s.submit (op :: bs) = some t ∧
      t.m_phase = FLOPPY_PHASE_EXEC ∧ t.m_resultlen = 0 ∧ t.m_int = false ∧
      t.m_pBoard = s.m_pBoard ∧
      (∀ calls : List HostCall,
        runCalls FLOPPY_MSR_RQM FLOPPY_MSR_DIO FLOPPY_MSR_CB t calls =
          some (List.replicate (countReads calls) 0xFF, t)) ∧
      t.Reset.m_phase = FLOPPY_PHASE_CMD := by
  have hsub := submit_row_complete s op r k bs hop hrow hbs hphase hlen
  obtain ⟨he, u, hu, hp, hl, _, _, hi, hb⟩ := StartCommand_unimplemented (pushAll s (op :: bs)) k hk
  refine ⟨he, u, by rw [hsub, hu], hp, hl, by rw [hi, pushAll_int], ?_, ?_, rfl⟩
  · rw [hb, (pushAll_frame s (op :: bs)).2.2.2.2.2.1]
  · exact runCalls_exec FLOPPY_MSR_RQM FLOPPY_MSR_DIO FLOPPY_MSR_CB u hp

theorem C20_unimplemented_stalls_witness :
    tableRow 0x04 = some (2, FLOPPY_COMMAND_SENSE_DRIVE_STATUS) ∧
    isUnimplemented FLOPPY_COMMAND_SENSE_DRIVE_STATUS ∧
    (∀ e : CFloppyController, e.ExecuteCommand FLOPPY_COMMAND_SENSE_DRIVE_STATUS = some e) ∧
    ∃ t, demoController.submit (0x04 :: [0x00]) = some t ∧
      t.m_phase = FLOPPY_PHASE_EXEC ∧ t.m_resultlen = 0 ∧ t.m_int = false ∧
      t.m_pBoard = demoController.m_pBoard ∧
      (∀ calls : List HostCall,
        runCalls 0x80 0x40 0x10 t calls = some (List.replicate (countReads calls) 0xFF, t)) ∧
      t.Reset.m_phase = FLOPPY_PHASE_CMD :=
  ⟨by decide, by decide, C20_unimplemented_stalls 0x80 0x40 0x10 demoController 0x04 2
    FLOPPY_COMMAND_SENSE_DRIVE_STATUS [0x00] (by decide) (by decide) rfl (by decide) rfl rfl⟩

/-! ## The buffer-bounds invariant -/

theorem ExecuteCommand_bounds (a u : CFloppyController) (cmd : FloppyCommand)
    (hl : a.m_resultlen = 0) (hp : a.m_resultpos = 0) (hph : a.m_phase = FLOPPY_PHASE_EXEC)
    (h : a.ExecuteCommand cmd = some u) :
    u.m_resultpos = 0 ∧ u.m_resultlen ≤ 7 ∧
    (u.m_phase = FLOPPY_PHASE_RESULT → 0 < u.m_resultlen) := by
  cases cmd <;> simp only [ExecuteCommand] at h
  case FLOPPY_COMMAND_READ_DATA =>
    split at h
    · cases h; simp [hp]
    · split at h
      · cases h
      · cases h; simp [hp]
  all_goals
    cases h
    simp [hp, hl, hph]

theorem StartCommand_bounds (a u : CFloppyController) (cmd : FloppyCommand)
    (h : a.StartCommand cmd = some u) :
    u.m_commandlen = 0 ∧ u.m_resultpos = 0 ∧ u.m_resultlen ≤ 7 ∧
    (u.m_phase = FLOPPY_PHASE_RESULT → 0 < u.m_resultlen) := by
  refine ⟨StartCommand_commandlen a u cmd h, ?_⟩
  simp only [StartCommand] at h
  refine ExecuteCommand_bounds _ u cmd ?_ ?_ ?_ h <;> split <;> rfl

/-- The invariant carried through the calls: the buffer bounds, and a first
buffered byte that is a byte. -/
theorem FifoWrite_bounds (s t : CFloppyController) (data : Nat) (hd : data < 256)
    (hinv : bufferBounds s) (hbyte : 1 ≤ s.m_commandlen → s.m_command 0 < 256)
    (h : s.FifoWrite data = some t) :
    bufferBounds t ∧ (1 ≤ t.m_commandlen → t.m_command 0 < 256) := by
  obtain ⟨i1, i2, i3, i4, i5, i6⟩ := hinv
  by_cases hp : s.m_phase = FLOPPY_PHASE_CMD
  · -- the byte is appended and the buffer classified
    have hlen1 : (s.pushCommandByte data).m_commandlen = s.m_commandlen + 1 := rfl
    have hb : (s.pushCommandByte data).m_command 0 < 256 := by
      by_cases hz : s.m_commandlen = 0
      · rw [pushCommandByte_first s data hz]; exact hd
      · rw [pushCommandByte_later s data hz]; exact hbyte (by omega)
    have hle : ∀ r k, tableRow ((s.pushCommandByte data).m_command 0) = some (r, k) →
        s.m_commandlen + 1 ≤ r := by
      intro r k hrow
      by_cases hz : s.m_commandlen = 0
      · have := (table_rows _ hb (r, k) hrow).1
        simp only at this
        omega
      · rw [pushCommandByte_later s data hz] at hrow
        obtain ⟨r2, k2, hrow2, hlt⟩ := i3 (by omega)
        rw [hrow2] at hrow
        cases hrow
        omega
    have hprobe := probe_table _ hb (s.m_commandlen + 1) (by omega) (by omega)
    have hchk : (s.pushCommandByte data).CheckCommand =
        (probe ((s.pushCommandByte data).m_command 0) (s.m_commandlen + 1)).CheckCommand :=
      CheckCommand_probe _
    by_cases hinc : (s.pushCommandByte data).CheckCommand = FLOPPY_COMMAND_INCOMPLETE
    · rw [FifoWrite_incomplete s data hp hinc] at h
      cases h
      -- the command of the first byte needs more bytes
      have hrow : ∃ r k, tableRow ((s.pushCommandByte data).m_command 0) = some (r, k) := by
        cases hr : tableRow ((s.pushCommandByte data).m_command 0) with
        | none =>
          have hinv2 := hprobe.1.2 (hprobe.2.1.1 hr)
          rw [← hchk, hinc] at hinv2
          cases hinv2
        | some row => exact ⟨row.1, row.2, rfl⟩
      obtain ⟨r, k, hrk⟩ := hrow
      have hr9 := table_rows _ hb (r, k) hrk
      have hlt : s.m_commandlen + 1 < r := by
        have h1 := hle r k hrk
        by_contra hcon
        have heq : s.m_commandlen + 1 = r := by omega
        have hk := (hprobe.2.2 (r, k) hrk).2 heq
        rw [← hchk, hinc] at hk
        exact hr9.2.2.2.1 hk.symm
      have hr9' : r ≤ 9 := hr9.2.1
      refine ⟨⟨?_, ?_, ?_, i4, i5, ?_⟩, fun _ => hb⟩
      · rw [hlen1]; omega
      · intro hne; exact absurd hp hne
      · intro _; exact ⟨r, k, hrk, by rw [hlen1]; exact hlt⟩
      · intro hres
        have : (s.pushCommandByte data).m_phase = s.m_phase := rfl
        rw [this, hp] at hres
        cases hres
    · by_cases hinvd : (s.pushCommandByte data).CheckCommand = FLOPPY_COMMAND_INVALID
      · rw [FifoWrite_invalid s data hp hinvd] at h
        cases h
        simp [bufferBounds]
      · rw [FifoWrite_valid s data hp hinc hinvd] at h
        obtain ⟨b1, b2, b3, b4⟩ := StartCommand_bounds _ _ _ h
        refine ⟨⟨?_, fun _ => b1, ?_, ?_, b3, ?_⟩, ?_⟩
        · rw [b1]; omega
        · intro h1; rw [b1] at h1; omega
        · rw [b2]; omega
        · intro hres; rw [b2]; exact b4 hres
        · intro h1; rw [b1] at h1; omega
  · rw [FifoWrite_other_phase s data hp] at h
    cases h
    exact ⟨⟨i1, i2, i3, i4, i5, i6⟩, hbyte⟩

theorem FifoRead_bounds (s : CFloppyController) (hinv : bufferBounds s) :
    bufferBounds s.FifoRead.2 := by
  obtain ⟨i1, i2, i3, i4, i5, i6⟩ := hinv
  by_cases hp : s.m_phase = FLOPPY_PHASE_RESULT
  · obtain ⟨_, r2, _, _, r5, r6⟩ := FifoRead_result s hp (i6 hp)
    obtain ⟨_, _, _, f4, f5, _⟩ := FifoRead_frame s
    have hlt := i6 hp
    have hc0 : s.m_commandlen = 0 := i2 (by rw [hp]; decide)
    refine ⟨by rw [f4]; exact i1, fun _ => by rw [f4]; exact hc0, ?_, ?_, by rw [r5]; exact i5, ?_⟩
    · intro h1; rw [f4, hc0] at h1; omega
    · rw [r2, r5]; omega
    · intro hres
      rw [r6] at hres
      rw [r2, r5]
      by_cases he : s.m_resultpos + 1 = s.m_resultlen
      · rw [if_pos he] at hres; cases hres
      · omega
  · have hs : s.FifoRead = (0xFF, s) := by
      unfold FifoRead
      split
      · rfl
      · rfl
      · rename_i h2; exact absurd h2 hp
    rw [hs]
    exact ⟨i1, i2, i3, i4, i5, i6⟩

/-- The fields the buffer bounds speak of. -/
theorem bufferBounds_congr (s t : CFloppyController) (hinv : bufferBounds s)
    (h1 : t.m_phase = s.m_phase) (h2 : t.m_commandlen = s.m_commandlen)
    (h3 : t.m_command = s.m_command) (h4 : t.m_resultlen = s.m_resultlen)
    (h5 : t.m_resultpos = s.m_resultpos) : bufferBounds t := by
  unfold bufferBounds at *
  rw [h1, h2, h3, h4, h5]
  exact hinv

theorem DetachImage_frame (s : CFloppyController) (i : Nat) :
    (s.DetachImage i).m_phase = s.m_phase ∧ (s.DetachImage i).m_commandlen = s.m_commandlen ∧
    (s.DetachImage i).m_command = s.m_command ∧ (s.DetachImage i).m_resultlen = s.m_resultlen ∧
    (s.DetachImage i).m_resultpos = s.m_resultpos := by
  by_cases h : (s.m_drivedata i).fpFile = none
  · rw [DetachImage_unattached s i h]
    exact ⟨rfl, rfl, rfl, rfl, rfl⟩
  · rw [DetachImage_attached s i h]
    exact ⟨rfl, rfl, rfl, rfl, rfl⟩

theorem AttachImage_frame (s : CFloppyController) (i : Nat) (rw ro : Option (List Nat))
    (r : Bool × CFloppyController) (h : s.AttachImage i rw ro = some r) :
    r.2.m_phase = s.m_phase ∧ r.2.m_commandlen = s.m_commandlen ∧
    r.2.m_command = s.m_command ∧ r.2.m_resultlen = s.m_resultlen ∧
    r.2.m_resultpos = s.m_resultpos := by
  unfold AttachImage at h
  have h0 : ∀ s0 : CFloppyController,
      s0 = (if (s.m_drivedata i).fpFile.isSome = true then s.DetachImage i else s) →
      s0.m_phase = s.m_phase ∧ s0.m_commandlen = s.m_commandlen ∧
      s0.m_command = s.m_command ∧ s0.m_resultlen = s.m_resultlen ∧
      s0.m_resultpos = s.m_resultpos := by
    intro s0 hs0
    rw [hs0]
    split
    · exact DetachImage_frame s i
    · exact ⟨rfl, rfl, rfl, rfl, rfl⟩
  generalize (if (s.m_drivedata i).fpFile.isSome = true then s.DetachImage i else s) = s0
    at h h0
  obtain ⟨e1, e2, e3, e4, e5⟩ := h0 s0 rfl
  cases rw with
  | some a =>
    simp [setDrive] at h
    split at h
    · simp at h
      rw [← h]
      exact ⟨e1, e2, e3, e4, e5⟩
    · simp at h
  | none =>
    cases ro with
    | none =>
      simp [setDrive] at h
      rw [← h]
      exact ⟨e1, e2, e3, e4, e5⟩
    | some b =>
      simp [setDrive] at h
      split at h
      · simp at h
        rw [← h]
        exact ⟨e1, e2, e3, e4, e5⟩
      · simp at h

theorem stepCall_bounds ( FLOPPY_MSR_RQM FLOPPY_MSR_DIO FLOPPY_MSR_CB : Nat)
    (s t : CFloppyController) (c : ControllerCall) (hc : c.wellFormed)
    (hinv : bufferBounds s) (hbyte : 1 ≤ s.m_commandlen → s.m_command 0 < 256)
    (h : stepCall FLOPPY_MSR_RQM FLOPPY_MSR_DIO FLOPPY_MSR_CB s c = some t) :
    bufferBounds t ∧ (1 ≤ t.m_commandlen → t.m_command 0 < 256) := by
  cases c with
  | fifoWrite data => exact FifoWrite_bounds s t data hc hinv hbyte h
  | fifoRead =>
    simp only [stepCall, Option.some.injEq] at h
    rw [← h]
    obtain ⟨_, _, _, f4, f5, _⟩ := FifoRead_frame s
    exact ⟨FifoRead_bounds s hinv, by rw [f4, f5]; exact hbyte⟩
  | getState =>
    simp only [stepCall, GetState, Option.some.injEq] at h
    rw [← h]
    exact ⟨hinv, hbyte⟩
  | reset =>
    simp only [stepCall, Option.some.injEq] at h
    rw [← h]
    simp [bufferBounds, Reset]
  | periodic =>
    simp only [stepCall, Periodic_eq, Option.some.injEq] at h
    rw [← h]
    exact ⟨hinv, hbyte⟩
  | attachImage drive openRW openRO =>
    simp only [stepCall] at h
    cases hr : s.AttachImage drive openRW openRO with
    | none => rw [hr] at h; cases h
    | some r =>
      rw [hr] at h
      simp only [Option.some.injEq] at h
      obtain ⟨e1, e2, e3, e4, e5⟩ := AttachImage_frame s drive openRW openRO r hr
      rw [← h]
      exact ⟨bufferBounds_congr s r.2 hinv e1 e2 e3 e4 e5, by rw [e2, e3]; exact hbyte⟩
  | detachImage drive =>
    simp only [stepCall, Option.some.injEq] at h
    obtain ⟨e1, e2, e3, e4, e5⟩ := DetachImage_frame s drive
    rw [← h]
    exact ⟨bufferBounds_congr s _ hinv e1 e2 e3 e4 e5, by rw [e2, e3]; exact hbyte⟩

theorem runController_bounds ( FLOPPY_MSR_RQM FLOPPY_MSR_DIO FLOPPY_MSR_CB : Nat) :
    ∀ (calls : List ControllerCall) (s t : CFloppyController),
      (∀ c ∈ calls, c.wellFormed) → bufferBounds s →
      (1 ≤ s.m_commandlen → s.m_command 0 < 256) →
      runController FLOPPY_MSR_RQM FLOPPY_MSR_DIO FLOPPY_MSR_CB s calls = some t →
      bufferBounds t := by
  intro calls
  induction calls with
  | nil =>
    intro s t _ hinv _ h
    simp only [runController, Option.some.injEq] at h
    rw [← h]; exact hinv
  | cons c rest ih =>
    intro s t hwf hinv hbyte h
    simp only [runController] at h
    cases hs : stepCall FLOPPY_MSR_RQM FLOPPY_MSR_DIO FLOPPY_MSR_CB s c with
    | none => rw [hs] at h; cases h
    | some s1 =>
      rw [hs] at h
      obtain ⟨j1, j2⟩ := stepCall_bounds FLOPPY_MSR_RQM FLOPPY_MSR_DIO FLOPPY_MSR_CB s s1 c
        (hwf c (by simp)) hinv hbyte hs
      exact ih s1 t (fun d hd => hwf d (by simp [hd])) j1 j2 h

theorem ctor_bounds (pBoard : CMotherboard) : bufferBounds (ctor pBoard) := by
  simp [bufferBounds, ctor]

/-- C21: the buffer-bounds invariant. In every state reached from the constructed
controller by a sequence of `FifoWrite` (of bytes), `FifoRead`, `GetState`,
`Reset`, `Periodic`, `AttachImage` and `DetachImage` (of drives 0 to 3) calls
that all return: the command length is at most 8, so the next append writes at
an index below 9; it is 0 outside Command phase; when it is at least 1 it is
below the length the table requires for the first buffered byte; the result
cursor is at most the result length, which is at most 7; in Result phase the
cursor is below the length, so the length is positive and `FifoRead` never
falls through to the sentinel: it returns the staged byte
`m_result[m_resultpos]`. -/
theorem C21_buffer_bounds ( FLOPPY_MSR_RQM FLOPPY_MSR_DIO FLOPPY_MSR_CB : Nat)
    (pBoard : CMotherboard) (calls : List ControllerCall) (t : CFloppyController)
    (hwf : ∀ c ∈ calls, c.wellFormed)
    (hrun : runController FLOPPY_MSR_RQM FLOPPY_MSR_DIO FLOPPY_MSR_CB (ctor pBoard) calls
      = some t) :
    t.m_commandlen ≤ 8 ∧ t.m_commandlen < 9 ∧
    (t.m_phase ≠ FLOPPY_PHASE_CMD → t.m_commandlen = 0) ∧
    (1 ≤ t.m_commandlen →
      ∃ r k, tableRow (t.m_command 0) = some (r, k) ∧ t.m_commandlen < r) ∧
    t.m_resultpos ≤ t.m_resultlen ∧ t.m_resultlen ≤ 7 ∧
    (t.m_phase = FLOPPY_PHASE_RESULT →
      t.m_resultpos < t.m_resultlen ∧ 0 < t.m_resultlen ∧
      t.FifoRead.1 = t.m_result t.m_resultpos) := by
  obtain ⟨i1, i2, i3, i4, i5, i6⟩ :=
    runController_bounds FLOPPY_MSR_RQM FLOPPY_MSR_DIO FLOPPY_MSR_CB calls (ctor pBoard) t hwf
      (ctor_bounds pBoard) (fun h => by simp [ctor] at h) hrun
  refine ⟨i1, by omega, i2, i3, i4, i5, ?_⟩
  intro hres
  exact ⟨i6 hres, by have := i6 hres; omega, (FifoRead_result t hres (i6 hres)).1⟩

theorem C21_buffer_bounds_witness :
    (∀ c ∈ demoCalls, c.wellFormed) ∧
    runController 0x80 0x40 0x10 (ctor demoBoard) demoCalls = some demoReached ∧
    demoReached.m_commandlen ≤ 8 ∧ demoReached.m_commandlen < 9 ∧
    (demoReached.m_phase ≠ FLOPPY_PHASE_CMD → demoReached.m_commandlen = 0) ∧
    (1 ≤ demoReached.m_commandlen →
      ∃ r k, tableRow (demoReached.m_command 0) = some (r, k) ∧ demoReached.m_commandlen < r) ∧
    demoReached.m_resultpos ≤ demoReached.m_resultlen ∧ demoReached.m_resultlen ≤ 7 ∧
    (demoReached.m_phase = FLOPPY_PHASE_RESULT →
      demoReached.m_resultpos < demoReached.m_resultlen ∧ 0 < demoReached.m_resultlen ∧
      demoReached.FifoRead.1 = demoReached.m_result demoReached.m_resultpos) :=
  ⟨by decide, rfl, C21_buffer_bounds 0x80 0x40 0x10 demoBoard demoCalls demoReached
    (by decide) rfl⟩

/-! ## Sector addressing -/

theorem sectorFrom_lt (s0 : Nat) (h : s0 < 10) : ∀ j, sectorFrom s0 j < 10 := by
  intro j
  cases j with
  | zero => exact h
  | succ j => exact Nat.mod_lt _ (by decide)

theorem sectorOffset_bounds (C H sec : Nat) (hC : C < 80) (hH : H < 2) (hs : sec < 10) :
    sectorOffset C H sec % 512 = 0 ∧ sectorOffset C H sec + 512 ≤ 819200 := by
  unfold sectorOffset
  omega

/-- C22: sector addressing stays inside the image for valid geometry. For a Read
Data command with cylinder `C < 80`, head `H < 2` and sector `1 ≤ R ≤ 10`, the
offset of every sector index of the transfer sequence, however long it runs, is
a multiple of 512 and ends within the 819200 bytes of the image; so is the
offset of every call the command makes when it runs on an attached drive until
the first stop. The largest value, `(79*2+1)*5120 + 9*512 + 512`, is exactly
819200, the size of the backing buffer. The executor checks no bound: with
cylinder 80 the first offset already ends beyond the image. -/
theorem C22_offsets_in_image (s : CFloppyController) (op b1 C H R N EOT GPL DTL : Nat)
    (hop : op < 256) (hrd : isReadOpcode op)
    (hphase : s.m_phase = FLOPPY_PHASE_CMD) (hlen : s.m_commandlen = 0)
    (hatt : s.IsAttached (b1 &&& 3) = true) (hstop : false ∈ s.m_pBoard.fillAnswers)
    (hC : C < 80) (hH : H < 2) (hR1 : 1 ≤ R) (hR10 : R ≤ 10) :
    (∀ j, sectorOffset C H (sectorIndex R j) % 512 = 0 ∧
      sectorOffset C H (sectorIndex R j) + 512 ≤ 819200) ∧
    (∃ t L, s.submit [op, b1, C, H, R, N, EOT, GPL, DTL] = some t ∧
      t.m_pBoard.fillCalls = s.m_pBoard.fillCalls ++ L ∧ 1 ≤ L.length ∧
      ∀ c ∈ L, c.offset % 512 = 0 ∧ c.offset + 512 ≤ 819200) ∧
    (79 * 2 + 1) * 5120 + 9 * 512 + 512 = 819200 ∧ imageSize = 819200 ∧
    819200 < sectorOffset 80 0 (sectorIndex 1 0) + 512 := by
  have hs0 : (R + 255) % 256 < 10 := by omega
  have hall : ∀ j, sectorOffset C H (sectorFrom ((R + 255) % 256) j) % 512 = 0 ∧
      sectorOffset C H (sectorFrom ((R + 255) % 256) j) + 512 ≤ 819200 :=
    fun j => sectorOffset_bounds C H _ hC hH (sectorFrom_lt _ hs0 j)
  refine ⟨?_, ?_, by decide, by decide, by decide⟩
  · intro j
    rw [sectorIndex_eq]
    exact hall j
  · obtain ⟨t, ht, _, _, _, _, _, _, _, _, _, _, _, _, hb, _⟩ :=
      read_data_attached s op b1 C H R N EOT GPL DTL hop hrd hphase hlen hatt hstop
    refine ⟨t, _, ht, by rw [hb], by simp, ?_⟩
    intro c hc
    simp only [List.mem_map, List.mem_range] at hc
    obtain ⟨j, _, hj⟩ := hc
    rw [← hj]
    exact hall j

theorem C22_offsets_in_image_witness :
    (∀ j, sectorOffset 79 1 (sectorIndex 10 j) % 512 = 0 ∧
      sectorOffset 79 1 (sectorIndex 10 j) + 512 ≤ 819200) ∧
    (∃ t L, (demoAttached 0).submit [0x06, 0x00, 79, 1, 10, 2, 0x0A, 0x1B, 0xFF] = some t ∧
      t.m_pBoard.fillCalls = (demoAttached 0).m_pBoard.fillCalls ++ L ∧ 1 ≤ L.length ∧
      ∀ c ∈ L, c.offset % 512 = 0 ∧ c.offset + 512 ≤ 819200) ∧
    (79 * 2 + 1) * 5120 + 9 * 512 + 512 = 819200 ∧ imageSize = 819200 ∧
    819200 < sectorOffset 80 0 (sectorIndex 1 0) + 512 :=
  C22_offsets_in_image (demoAttached 0) 0x06 0x00 79 1 10 2 0x0A 0x1B 0xFF (by decide)
    (by decide) rfl rfl (by decide) (by decide) (by decide) (by decide) (by decide) (by decide)
